import Mathlib

/-!
Verification development for the aintinksmart ESP32 e-ink gateway firmware.

The firmware bridges MQTT commands to a BLE e-ink display.  The embedding
below follows the sources in src/:

- hexStringToBytes is translated from src/src/utils.cpp (lines 9-47);
- the MQTT command handling (start and packet commands) is translated from
  the final revision of the callback in src/unnamed/part_002 (mqttCallback,
  lines 86-220);
- connectBLE / disconnectBLE / writePacketToBLE are translated from
  src/unnamed/part_004 (lines 121-213);
- the transfer loop is translated from the second firmware revision in
  src/src/main.cpp (loop, lines 533-638).  The final revision of the main
  loop (the one matching part_002, which completes a transfer by packet
  count instead of an END command) is not part of the sources under src/;
  the three places where it differs from the revision that is present
  (completion test, inbound stall timeout, once-per-session writing status)
  are modelled from the specification and marked as such in doc comments.

Machine integers: counters and timestamps only grow from zero in the traces
considered here, so they are modelled as Nat; the 32-bit wrap of millis()
subtraction is irrelevant for monotone time and is not modelled.
-/

/-- Configuration constant from src/unnamed/part_001 line 47: maximum number
of BLE connect attempts counted by the transfer loop before the transfer is
aborted. -/
def MAX_BLE_CONNECT_RETRIES : Nat := 4

/-- Configuration constant from src/unnamed/part_001 line 49: inbound stall
timeout in milliseconds for receiving the next packet. -/
def PACKET_RECEIVE_TIMEOUT_MS : Nat := 15000

/-- Hexadecimal digit test in ASCII codes (48-57 are 0-9, 97-102 are a-f,
65-70 are A-F), mirroring what strtoul with base 16 accepts as a digit
character. -/
def isHexDigitC (c : Char) : Bool :=
  (48 ≤ c.toNat ∧ c.toNat ≤ 57) ∨ (97 ≤ c.toNat ∧ c.toNat ≤ 102) ∨
    (65 ≤ c.toNat ∧ c.toNat ≤ 70)

/-- Value of a hexadecimal digit character (0 for non-digits). -/
def hexDigitVal (c : Char) : Nat :=
  if 48 ≤ c.toNat ∧ c.toNat ≤ 57 then c.toNat - 48
  else if 97 ≤ c.toNat ∧ c.toNat ≤ 102 then c.toNat - 97 + 10
  else if 65 ≤ c.toNat ∧ c.toNat ≤ 70 then c.toNat - 65 + 10
  else 0

/-- Whitespace as classified by isspace in the C locale (ASCII 9-13 and 32),
which strtoul skips before the number. -/
def isCSpace (c : Char) : Bool :=
  c.toNat = 32 ∨ c.toNat = 9 ∨ c.toNat = 10 ∨ c.toNat = 11 ∨
    c.toNat = 12 ∨ c.toNat = 13

/-- Semantics of the strtoul call in hexStringToBytes (src/src/utils.cpp
lines 21-27) on the two-character substring, together with the check that the
end pointer reached the terminator.  strtoul skips leading C whitespace and
accepts an optional sign; a minus sign negates modulo 2 to the 32 (unsigned
long on the ESP32 is 32 bits).  Returns none when the end-pointer check
fails, which the source turns into invalid_argument. -/
def strtoulHexPair (c0 c1 : Char) : Option Nat :=
  if isHexDigitC c0 ∧ isHexDigitC c1 then some (16 * hexDigitVal c0 + hexDigitVal c1)
  else if isCSpace c0 ∧ isHexDigitC c1 then some (hexDigitVal c1)
  else if c0 = '+' ∧ isHexDigitC c1 then some (hexDigitVal c1)
  else if c0 = '-' ∧ isHexDigitC c1 then some ((2 ^ 32 - hexDigitVal c1) % 2 ^ 32)
  else none

/-- Body of the conversion loop of hexStringToBytes (src/src/utils.cpp lines
17-45): convert consecutive two-character groups; any conversion error or a
value above 255 clears the whole result (modelled by none). -/
def hexPairsToBytes : List Char → Option (List Nat)
  | [] => some []
  | [_] => none
  | c0 :: c1 :: rest =>
    match strtoulHexPair c0 c1 with
    | none => none
    | some v =>
      if 255 < v then none
      else (hexPairsToBytes rest).map (fun bs => v :: bs)

/-- Translation of hexStringToBytes from src/src/utils.cpp (lines 9-47) on a
list of characters: odd-length input yields the empty list (lines 11-14), and
any conversion failure clears the partially built vector and returns it empty
(lines 32-44). -/
def hexBytes (l : List Char) : List Nat :=
  if l.length % 2 ≠ 0 then []
  else
    match hexPairsToBytes l with
    | none => []
    | some bs => bs

/-- String-level wrapper of the hexStringToBytes translation. -/
def hexStringToBytes (s : String) : List Nat :=
  hexBytes s.data

/-- Reference function for the statement of claim C10: byte i is the value of
the i-th two-character hex pair.  Stated from the claim wording, to be proved
equal to the translation on well-formed input. -/
def hexPairValues : List Char → List Nat
  | [] => []
  | [_] => []
  | c0 :: c1 :: rest => (16 * hexDigitVal c0 + hexDigitVal c1) :: hexPairValues rest

/-- Mutable state of the transfer orchestrator: the globals declared in
src/unnamed/part_001 (globals.h, final revision, lines 157-218) and defined in
src/src/globals.cpp.  The two log fields admittedLog and writtenLog are ghost
history variables recording, for the current session, the packets admitted to
the queue and the packets whose BLE write succeeded, in order; they are used
only to state the FIFO property and never influence control flow. -/
structure GwState where
  currentTargetMac : String
  transferInProgress : Bool
  transferAborted : Bool
  bleConnected : Bool
  bleConnectRetries : Nat
  writingStatusPublished : Bool
  lastActionTime : Nat
  expectedPacketCount : Nat
  packetsReceivedCount : Nat
  packetsWrittenCount : Nat
  packetQueue : List (List Nat)
  admittedLog : List (List Nat)
  writtenLog : List (List Nat)
deriving Repr, DecidableEq

/-- Initial values of the globals from src/src/globals.cpp lines 32-47. -/
def initialGw : GwState :=
  { currentTargetMac := ""
  , transferInProgress := false
  , transferAborted := false
  , bleConnected := false
  , bleConnectRetries := 0
  , writingStatusPublished := false
  , lastActionTime := 0
  , expectedPacketCount := 0
  , packetsReceivedCount := 0
  , packetsWrittenCount := 0
  , packetQueue := []
  , admittedLog := []
  , writtenLog := [] }

/-- Status events published over MQTT: a status string paired with the target
MAC it is published for (empty for the general bridge topic), as produced by
publishStatus in src/unnamed/part_002 lines 223-244. -/
abbrev GwLog := List (String × String)

/-- Outcome of one BLE connect attempt, abstracting the external NimBLE
client used by connectBLE in src/unnamed/part_004: the connection itself can
fail (line 149), or the service or characteristic lookup can fail (lines
157-173); ok means the attempt fully succeeded. -/
inductive ConnRes where
  | ok
  | connFail
  | serviceFail
  | charFail
deriving Repr, DecidableEq

/-- Translation of connectBLE from src/unnamed/part_004 lines 121-179.  The
external NimBLE outcomes are supplied by the ConnRes argument.  Returns the
new state, the statuses published, and the boolean result of the function.
The client-creation failure branch (lines 129-137) is not modelled: the
environment argument covers the attempt outcomes that depend on the radio. -/
def connectBLE (s : GwState) (targetMac : String) (r : ConnRes) :
    GwState × GwLog × Bool :=
  if s.bleConnected then (s, [], true)
  else
    match r with
    | ConnRes.ok =>
      ({ s with bleConnected := true },
        [("connecting_ble", targetMac), ("connected_ble", targetMac)], true)
    | ConnRes.connFail => (s, [("connecting_ble", targetMac)], false)
    | ConnRes.serviceFail =>
      (s, [("connecting_ble", targetMac), ("error_ble_service", targetMac)], false)
    | ConnRes.charFail =>
      (s, [("connecting_ble", targetMac), ("error_ble_char", targetMac)], false)

/-- Translation of disconnectBLE from src/unnamed/part_004 lines 181-194: the
link state is dropped; nothing is published and the target MAC is kept for
the main loop cleanup. -/
def disconnectBLE (s : GwState) : GwState :=
  { s with bleConnected := false }

/-- Translation of the START branch of mqttCallback from src/unnamed/part_002
(lines 121-198).  Arguments: mac is the MAC extracted from the topic, macOk
is whether the NimBLEAddress constructor accepts it (lines 169-182), total is
the total_packets field of the JSON payload when present and well typed
(lines 146-158), now is millis(), and cr is the outcome of the immediate
connect attempt of line 198.  The timer reset of lines 122-125 always fires
for a start command.  Note that line 189 of the source deliberately leaves
packetsWrittenCount to be reset by the main loop cleanup. -/
def startCmd (s : GwState) (mac : String) (macOk : Bool) (total : Option Nat)
    (now : Nat) (cr : ConnRes) : GwState × GwLog :=
  let s0 := { s with lastActionTime := now }
  if s0.transferInProgress ∧ mac ≠ s0.currentTargetMac then (s0, [])
  else
    let s1 := if s0.transferInProgress then disconnectBLE s0 else s0
    match total with
    | none => (s1, [("error_start_format", mac)])
    | some n =>
      if n = 0 then (s1, [("error_start_format", mac)])
      else
        let s2 := { s1 with expectedPacketCount := n, currentTargetMac := mac }
        if ¬macOk then
          ({ s2 with currentTargetMac := "" }, [("error_invalid_mac", mac)])
        else
          let s3 := { s2 with
            packetQueue := []
          , packetsReceivedCount := 0
          , transferAborted := false
          , bleConnectRetries := 0
          , writingStatusPublished := false
          , admittedLog := []
          , writtenLog := []
          , transferInProgress := true }
          let l0 := [("starting", mac)]
          if ¬s3.bleConnected then
            let c := connectBLE s3 mac cr
            (c.1, l0 ++ c.2.1)
          else (s3, l0)

/-- Translation of the PACKET branch of mqttCallback from src/unnamed/part_002
(lines 121-129 and 200-214): the inactivity timer is refreshed for a packet
addressed to the active transfer (lines 122-125) before the payload is
validated; a packet for an inactive or different transfer is dropped (lines
201-204); a payload that hexStringToBytes cannot convert is dropped with an
error_packet_format status (lines 207-214). -/
def packetCmd (s : GwState) (mac : String) (hex : List Char) (now : Nat) :
    GwState × GwLog :=
  let s0 :=
    if s.transferInProgress ∧ mac = s.currentTargetMac then
      { s with lastActionTime := now }
    else s
  if ¬(s0.transferInProgress ∧ mac = s0.currentTargetMac) then (s0, [])
  else
    let bytes := hexBytes hex
    if bytes ≠ [] then
      ({ s0 with
          packetQueue := s0.packetQueue ++ [bytes]
        , packetsReceivedCount := s0.packetsReceivedCount + 1
        , admittedLog := s0.admittedLog ++ [bytes] }, [])
    else (s0, [("error_packet_format", s0.currentTargetMac)])

/-- Packet-writing section of the transfer loop, translated from
src/src/main.cpp lines 579-607 (second revision).  The completion test of the
revision present in src/ uses the END-command flag; the final revision is
absent from src/ and its test is therefore Modelled from the spec: on write
success, if written equals expectedCount the session completes and emits
success, else it emits writing once per session (tracked by the
writingStatusPublished global of src/src/globals.cpp line 42).  On write
failure the session is terminated: error_write is published, the abort flag
set, the link force-disconnected, and the transfer marked not in progress
(lines 596-606). -/
def writePhase (s : GwState) (now : Nat) (writeOk : Bool) (l : GwLog) :
    GwState × GwLog :=
  match s.packetQueue with
  | [] => (s, l)
  | p :: rest =>
    if s.bleConnected then
      if writeOk then
        let w := s.packetsWrittenCount + 1
        let s1 := { s with
            packetQueue := rest
          , packetsWrittenCount := w
          , lastActionTime := now
          , writtenLog := s.writtenLog ++ [p] }
        if w = s1.expectedPacketCount then
          ({ s1 with transferInProgress := false },
            l ++ [("success", s1.currentTargetMac)])
        else if s1.writingStatusPublished then (s1, l)
        else ({ s1 with writingStatusPublished := true },
          l ++ [("writing", s1.currentTargetMac)])
      else
        ({ s with transferAborted := true
                , bleConnected := false
                , transferInProgress := false },
          l ++ [("error_write", s.currentTargetMac)])
    else (s, l)

/-- Cleanup section of the transfer loop, translated from src/src/main.cpp
lines 608-635 (second revision): once the transfer is no longer in progress
the link is disconnected if still up, and if a target MAC is still recorded
the per-session state is reset and a general idle status published.  The
counter resets are Modelled from the spec: the final revision of the loop is
absent from src/, the comment at src/unnamed/part_002 line 189 states that
packetsWrittenCount is reset here, and the specification says cleanup resets
the counters. -/
def cleanupPhase (s : GwState) : GwState × GwLog :=
  let s0 := disconnectBLE s
  if s0.currentTargetMac ≠ "" then
    ({ s0 with
        lastActionTime := 0
      , bleConnectRetries := 0
      , packetQueue := []
      , packetsWrittenCount := 0
      , packetsReceivedCount := 0
      , expectedPacketCount := 0
      , writingStatusPublished := false
      , admittedLog := []
      , writtenLog := []
      , currentTargetMac := "" }, [("idle", "")])
  else (s0, [])

/-- Connection-management section of the transfer loop, translated from
src/src/main.cpp lines 549-575 (second revision): when the link is down, one
connect attempt is made; on failure the retry counter is incremented and,
once it reaches MAX_BLE_CONNECT_RETRIES, the transfer is aborted with
error_ble_connect_failed and a forced disconnect (lines 553-561), otherwise
the iteration ends after the retry delay (lines 563-566); on success, and
also when the link was already up, the retry counter is reset to 0 (lines
568-574) and the iteration continues into the packet-writing section. -/
def connPhase (s : GwState) (now : Nat) (cr : ConnRes) (writeOk : Bool) :
    GwState × GwLog :=
  if ¬s.bleConnected then
    let c := connectBLE s s.currentTargetMac cr
    if c.2.2 then
      writePhase { c.1 with bleConnectRetries := 0 } now writeOk c.2.1
    else
      let r := s.bleConnectRetries + 1
      if MAX_BLE_CONNECT_RETRIES ≤ r then
        ({ c.1 with bleConnectRetries := r
                  , transferAborted := true
                  , transferInProgress := false
                  , bleConnected := false },
          c.2.1 ++ [("error_ble_connect_failed", s.currentTargetMac)])
      else ({ c.1 with bleConnectRetries := r }, c.2.1)
  else writePhase { s with bleConnectRetries := 0 } now writeOk []

/-- One iteration of the BLE transfer logic of loop(), translated from
src/src/main.cpp lines 542-638 (second revision): while a transfer is in
progress the abort guard of line 547 is checked, then the inbound stall
timeout, then connection management and packet writing; otherwise cleanup
runs.  The stall timeout check is Modelled from the spec: the final revision
of the loop is absent from src/; per the specification, a session whose queue
is empty with fewer packets received than expected and no activity for longer
than PACKET_RECEIVE_TIMEOUT_MS (src/unnamed/part_001 line 49) is aborted with
error_packet_timeout and a forced disconnect. -/
def loopStep (s : GwState) (now : Nat) (cr : ConnRes) (writeOk : Bool) :
    GwState × GwLog :=
  if s.transferInProgress then
    if s.transferAborted then (s, [])
    else if s.packetQueue = [] ∧ s.packetsReceivedCount < s.expectedPacketCount ∧
        PACKET_RECEIVE_TIMEOUT_MS < now - s.lastActionTime then
      ({ s with transferInProgress := false
              , transferAborted := true
              , bleConnected := false },
        [("error_packet_timeout", s.currentTargetMac)])
    else connPhase s now cr writeOk
  else cleanupPhase s

/-- Modelled from the spec: pixel classification values of the Bitplane
Encoder (spec section 4.1); the codec implementation lives in the Python
service (helpers.py), which is not among the sources under src/. -/
inductive EinkColor where
  | background
  | foreground
  | accent
deriving Repr, DecidableEq

/-- Modelled from the spec: a BitplanePair is two equal-length bit sequences
(primary, accent), length panel width times height (spec section 3). -/
structure BitplanePair where
  primary : List Bool
  accent : List Bool
deriving Repr, DecidableEq

/-- Modelled from the spec: pad a pixel row on the right with BACKGROUND to
reach the panel width (spec section 4.1). -/
def padRow (w : Nat) (row : List EinkColor) : List EinkColor :=
  row ++ List.replicate (w - row.length) EinkColor.background

/-- Modelled from the spec: pad an image on the right and bottom with
BACKGROUND to reach the panel dimensions exactly (spec section 4.1). -/
def padImage (w h : Nat) (img : List (List EinkColor)) : List (List EinkColor) :=
  img.map (padRow w) ++ List.replicate (h - img.length) (List.replicate w EinkColor.background)

/-- Modelled from the spec: the Bitplane Encoder converts a classified pixel
grid, pixel-row-major, into the primary plane (FOREGROUND presence) and the
accent plane (ACCENT presence); padding pixels are BACKGROUND and contribute
false bits to both planes (spec sections 2 and 4.1). -/
def toBitplanes (w h : Nat) (img : List (List EinkColor)) : BitplanePair :=
  let px := (padImage w h img).flatten
  { primary := px.map (fun c => decide (c = EinkColor.foreground))
  , accent := px.map (fun c => decide (c = EinkColor.accent)) }

/-- Value of a group of up to 8 bits as one byte, least significant bit
first.  Modelled from the spec: the packed candidate directly bit-packs each
plane, 8 bits per byte (spec section 4.2); the bit order within a byte is a
modelling choice, the spec leaves it open. -/
def byteOfBits : List Bool → Nat
  | [] => 0
  | b :: t => cond b 1 0 + 2 * byteOfBits t

/-- Inverse of byteOfBits: the k low-order bits of a byte, least significant
first. -/
def bitsOfByte : Nat → Nat → List Bool
  | 0, _ => []
  | k + 1, n => decide (n % 2 = 1) :: bitsOfByte k (n / 2)

/-- Modelled from the spec: bit-pack one plane, 8 bits per byte, the last
byte padded with false bits (spec section 4.2). -/
def packedEncodePlane (l : List Bool) : List Nat :=
  if h : l = [] then []
  else byteOfBits (l.take 8) :: packedEncodePlane (l.drop 8)
termination_by l.length
decreasing_by
  simp only [List.length_drop]
  exact Nat.sub_lt (List.length_pos.mpr h) (by decide)

/-- Modelled from the spec: decode L bit-packed bits from a byte stream,
returning the bits and the remaining bytes. -/
def packedDecodePlane (L : Nat) (bs : List Nat) : List Bool × List Nat :=
  if L = 0 then ([], bs)
  else
    match bs with
    | [] => ([], [])
    | b :: rest =>
      let pr := packedDecodePlane (L - 8) rest
      (bitsOfByte (min 8 L) b ++ pr.1, pr.2)

/-- Modelled from the spec: the packed candidate payload is the bit-packed
primary plane followed by the bit-packed accent plane (spec section 4.2). -/
def packedEncodePair (p : BitplanePair) : List Nat :=
  packedEncodePlane p.primary ++ packedEncodePlane p.accent

/-- Modelled from the spec: decode a packed candidate payload for a panel of
L pixels per plane back into a BitplanePair. -/
def packedDecodePair (L : Nat) (bs : List Nat) : BitplanePair :=
  let a := packedDecodePlane L bs
  let b := packedDecodePlane L a.2
  { primary := a.1, accent := b.1 }

/-- Maximal runs of a bit sequence: value and length of each run, in order,
every length positive. -/
def runs : List Bool → List (Bool × Nat)
  | [] => []
  | b :: t =>
    match runs t with
    | [] => [(b, 1)]
    | (v, n) :: rs => if b = v then (v, n + 1) :: rs else (b, 1) :: (v, n) :: rs

/-- Concatenation of runs back into a bit sequence. -/
def flattenRuns : List (Bool × Nat) → List Bool
  | [] => []
  | p :: rs => List.replicate p.2 p.1 ++ flattenRuns rs

/-- Total length described by a list of runs. -/
def sumRunLens : List (Bool × Nat) → Nat
  | [] => 0
  | p :: rs => p.2 + sumRunLens rs

/-- Modelled from the spec: run lengths are byte-aligned with an escape and
continuation rule for runs longer than one byte can express (spec section
4.2): a length below 255 is one byte, and the escape byte 255 adds 255 to the
length and continues. -/
def runLenBytes (n : Nat) : List Nat :=
  if n < 255 then [n]
  else 255 :: runLenBytes (n - 255)
termination_by n

/-- Inverse of runLenBytes: read one byte-aligned run length from a byte
stream, returning the length and the remaining bytes. -/
def readRunLen : List Nat → Nat × List Nat
  | [] => (0, [])
  | b :: rest =>
    if b = 255 then
      let p := readRunLen rest
      (255 + p.1, p.2)
    else (b, rest)

/-- Modelled from the spec: the run-length candidate emits pairs of bit value
and byte-aligned run length for each maximal run (spec section 4.2); the bit
value is one byte, 1 for a set bit and 0 for a clear bit. -/
def rleEncodeRuns : List (Bool × Nat) → List Nat
  | [] => []
  | (v, n) :: rs => cond v 1 0 :: (runLenBytes n ++ rleEncodeRuns rs)

/-- Modelled from the spec: run-length encode one plane, scanned as a flat
bit sequence (spec section 4.2). -/
def rleEncodePlane (l : List Bool) : List Nat :=
  rleEncodeRuns (runs l)

/-- Reading one run length never leaves more bytes than it was given. -/
theorem readRunLen_snd_length (bs : List Nat) :
    (readRunLen bs).2.length ≤ bs.length := by
  induction bs with
  | nil => simp [readRunLen]
  | cons b rest ih =>
    simp only [readRunLen]
    by_cases hb : b = 255
    · simp only [hb, if_pos rfl]
      exact le_trans ih (by simp)
    · simp [hb]

/-- Modelled from the spec: decode L run-length encoded bits from a byte
stream, returning the bits and the remaining bytes.  Each run is one value
byte followed by a byte-aligned length; a run is clipped at the L bits the
plane still needs, which on well-formed input never happens. -/
def rleDecodePlane (L : Nat) (bs : List Nat) : List Bool × List Nat :=
  if L = 0 then ([], bs)
  else
    match bs with
    | [] => ([], [])
    | vb :: rest =>
      let v := decide (vb = 1)
      let p := readRunLen rest
      let n := min p.1 L
      let q := rleDecodePlane (L - n) p.2
      (List.replicate n v ++ q.1, q.2)
termination_by bs.length
decreasing_by
  exact Nat.lt_succ_of_le (readRunLen_snd_length rest)

/-- Modelled from the spec: the run-length candidate payload concatenates the
primary-plane runs then the accent-plane runs (spec section 4.2). -/
def rleEncodePair (p : BitplanePair) : List Nat :=
  rleEncodePlane p.primary ++ rleEncodePlane p.accent

/-- Modelled from the spec: decode a run-length candidate payload for a panel
of L pixels per plane back into a BitplanePair. -/
def rleDecodePair (L : Nat) (bs : List Nat) : BitplanePair :=
  let a := rleDecodePlane L bs
  let b := rleDecodePlane L a.2
  { primary := a.1, accent := b.1 }

/-- The runs of a bit sequence have positive lengths. -/
theorem runs_len_pos (l : List Bool) : ∀ p ∈ runs l, 1 ≤ p.2 := by
  induction l with
  | nil => simp [runs]
  | cons b t ih =>
    cases h : runs t with
    | nil => simp [runs, h]
    | cons p rs =>
      obtain ⟨v, n⟩ := p
      rw [h] at ih
      by_cases hbv : b = v
      · subst hbv
        simp only [runs, h, if_pos rfl]
        intro q hq
        rcases List.mem_cons.mp hq with h1 | h2
        · subst h1; simp
        · exact ih q (List.mem_cons_of_mem _ h2)
      · simp only [runs, h, if_neg hbv]
        intro q hq
        rcases List.mem_cons.mp hq with h1 | h2
        · subst h1; simp
        · exact ih q h2

/-- The runs of a bit sequence flatten back to the sequence. -/
theorem flattenRuns_runs (l : List Bool) : flattenRuns (runs l) = l := by
  induction l with
  | nil => rfl
  | cons b t ih =>
    cases h : runs t with
    | nil =>
      rw [h] at ih
      simp only [flattenRuns] at ih
      simp [runs, h, flattenRuns, ← ih]
    | cons p rs =>
      obtain ⟨v, n⟩ := p
      rw [h] at ih
      by_cases hbv : b = v
      · subst hbv
        simp only [runs, h, if_pos rfl, flattenRuns] at ih ⊢
        rw [List.replicate_succ, List.cons_append, ih]
      · simp only [runs, h, if_neg hbv, flattenRuns] at ih ⊢
        simp [ih]

/-- Flattened runs have the length the run lengths add up to. -/
theorem length_flattenRuns (rs : List (Bool × Nat)) :
    (flattenRuns rs).length = sumRunLens rs := by
  induction rs with
  | nil => rfl
  | cons p rs ih => simp [flattenRuns, sumRunLens, ih]

/-- Reading back a byte-aligned run length recovers it and the rest of the
stream. -/
theorem readRunLen_runLenBytes (n : Nat) (t : List Nat) :
    readRunLen (runLenBytes n ++ t) = (n, t) := by
  induction n using Nat.strong_induction_on with
  | _ n ih =>
    rw [runLenBytes]
    by_cases h : n < 255
    · simp only [if_pos h, List.cons_append, List.nil_append]
      rw [readRunLen]
      have hne : ¬(n = 255) := by omega
      simp [hne]
    · simp only [if_neg h, List.cons_append]
      rw [readRunLen]
      simp only [if_pos rfl]
      rw [ih (n - 255) (by omega)]
      have : 255 + (n - 255) = n := by omega
      simp [this]

/-- The value byte of a run decodes back to the bit value. -/
theorem decide_cond_eq (v : Bool) : decide (cond v 1 0 = 1) = v := by
  cases v <;> decide

/-- Decoding a run-length byte stream built from positive runs recovers the
runs and leaves trailing bytes untouched. -/
theorem rleDecodePlane_encodeRuns (rs : List (Bool × Nat)) (extra : List Nat)
    (hpos : ∀ p ∈ rs, 1 ≤ p.2) :
    rleDecodePlane (sumRunLens rs) (rleEncodeRuns rs ++ extra) =
      (flattenRuns rs, extra) := by
  induction rs with
  | nil =>
    rw [rleDecodePlane.eq_def]
    simp [sumRunLens, rleEncodeRuns, flattenRuns]
  | cons p rs ih =>
    obtain ⟨v, n⟩ := p
    have hn : 1 ≤ n := hpos (v, n) (by simp)
    have hrs : ∀ q ∈ rs, 1 ≤ q.2 := fun q hq => hpos q (List.mem_cons_of_mem _ hq)
    rw [rleDecodePlane.eq_def]
    have hL : ¬(sumRunLens ((v, n) :: rs) = 0) := by
      simp only [sumRunLens]; omega
    rw [if_neg hL]
    simp only [rleEncodeRuns, List.cons_append, List.append_assoc]
    simp only [readRunLen_runLenBytes]
    have hmin : min n (sumRunLens ((v, n) :: rs)) = n := by
      simp only [sumRunLens]; omega
    simp only [hmin, decide_cond_eq]
    have hsub : sumRunLens ((v, n) :: rs) - n = sumRunLens rs := by
      simp only [sumRunLens]; omega
    rw [hsub, ih hrs]
    simp [flattenRuns]

/-- Run-length decoding inverts run-length encoding of a plane and leaves
trailing bytes untouched. -/
theorem rleDecodePlane_encodePlane (l : List Bool) (extra : List Nat) :
    rleDecodePlane l.length (rleEncodePlane l ++ extra) = (l, extra) := by
  have h1 := rleDecodePlane_encodeRuns (runs l) extra (runs_len_pos l)
  rw [flattenRuns_runs] at h1
  have h2 : sumRunLens (runs l) = l.length := by
    rw [← length_flattenRuns, flattenRuns_runs]
  rw [rleEncodePlane, ← h2]
  exact h1

/-- Run-length decoding inverts run-length encoding of a BitplanePair whose
planes both have the panel length. -/
theorem rleDecodePair_encodePair (p : BitplanePair) (L : Nat)
    (hp : p.primary.length = L) (ha : p.accent.length = L) :
    rleDecodePair L (rleEncodePair p) = p := by
  have h1 : rleDecodePlane L (rleEncodePlane p.primary ++ rleEncodePlane p.accent) =
      (p.primary, rleEncodePlane p.accent) := by
    rw [← hp]; exact rleDecodePlane_encodePlane p.primary _
  have h2 : rleDecodePlane L (rleEncodePlane p.accent) = (p.accent, []) := by
    rw [← ha]
    simpa using rleDecodePlane_encodePlane p.accent []
  simp [rleDecodePair, rleEncodePair, h1, h2]

/-- Unpacking the low bits of a packed byte recovers the bits. -/
theorem bitsOfByte_byteOfBits (bs : List Bool) :
    bitsOfByte bs.length (byteOfBits bs) = bs := by
  induction bs with
  | nil => rfl
  | cons b t ih =>
    simp only [List.length_cons, byteOfBits, bitsOfByte]
    have hhead : decide ((cond b 1 0 + 2 * byteOfBits t) % 2 = 1) = b := by
      cases b <;> simp only [cond_true, cond_false, decide_eq_true_eq,
        decide_eq_false_iff_not] <;> omega
    have hdiv : (cond b 1 0 + 2 * byteOfBits t) / 2 = byteOfBits t := by
      cases b <;> simp only [cond_true, cond_false] <;> omega
    rw [hhead, hdiv, ih]

/-- Packed decoding inverts packed encoding of a plane and leaves trailing
bytes untouched. -/
theorem packedDecodePlane_encodePlane_aux :
    ∀ (n : Nat) (l : List Bool) (extra : List Nat), l.length ≤ n →
      packedDecodePlane l.length (packedEncodePlane l ++ extra) = (l, extra) := by
  intro n
  induction n with
  | zero =>
    intro l extra h
    have hl : l = [] := List.length_eq_zero.mp (Nat.le_zero.mp h)
    subst hl
    rw [packedEncodePlane.eq_def]
    rw [packedDecodePlane.eq_def]; simp
  | succ m ih =>
    intro l extra h
    by_cases hl : l = []
    · subst hl
      rw [packedEncodePlane.eq_def]
      rw [packedDecodePlane.eq_def]; simp
    · rw [packedEncodePlane.eq_def, dif_neg hl, packedDecodePlane.eq_def]
      have hlen : ¬(l.length = 0) := by simpa [List.length_eq_zero] using hl
      rw [if_neg hlen]
      simp only [List.cons_append]
      have hdrop : (l.drop 8).length = l.length - 8 := by simp
      have ihd := ih (l.drop 8) extra (by rw [hdrop]; omega)
      rw [hdrop] at ihd
      simp only [ihd]
      have htake : min 8 l.length = (l.take 8).length := by simp
      rw [htake, bitsOfByte_byteOfBits, List.take_append_drop]

/-- Packed decoding inverts packed encoding of a plane and leaves trailing
bytes untouched. -/
theorem packedDecodePlane_encodePlane (l : List Bool) (extra : List Nat) :
    packedDecodePlane l.length (packedEncodePlane l ++ extra) = (l, extra) :=
  packedDecodePlane_encodePlane_aux l.length l extra le_rfl

/-- Packed decoding inverts packed encoding of a BitplanePair whose planes
both have the panel length. -/
theorem packedDecodePair_encodePair (p : BitplanePair) (L : Nat)
    (hp : p.primary.length = L) (ha : p.accent.length = L) :
    packedDecodePair L (packedEncodePair p) = p := by
  have h1 : packedDecodePlane L (packedEncodePlane p.primary ++ packedEncodePlane p.accent) =
      (p.primary, packedEncodePlane p.accent) := by
    rw [← hp]; exact packedDecodePlane_encodePlane p.primary _
  have h2 : packedDecodePlane L (packedEncodePlane p.accent) = (p.accent, []) := by
    rw [← ha]
    simpa using packedDecodePlane_encodePlane p.accent []
  simp [packedDecodePair, packedEncodePair, h1, h2]

/-- Padding an in-bounds image produces exactly panel-width times
panel-height pixels. -/
theorem padImage_flatten_length (w : Nat) (img : List (List EinkColor)) :
    ∀ h : Nat, img.length ≤ h → (∀ row ∈ img, row.length ≤ w) →
      ((padImage w h img).flatten).length = w * h := by
  induction img with
  | nil =>
    intro h _ _
    simp [padImage, List.length_flatten, List.map_replicate, List.sum_replicate,
      Nat.mul_comm]
  | cons row rest ih =>
    intro h hh hw
    have hpos : 1 ≤ h := le_trans (by simp) hh
    have hsplit : padImage w h (row :: rest) = padRow w row :: padImage w (h - 1) rest := by
      simp only [padImage, List.map_cons, List.cons_append, List.length_cons]
      have hc : h - (rest.length + 1) = h - 1 - rest.length := by omega
      rw [hc]
    rw [hsplit]
    simp only [List.flatten_cons, List.length_append]
    have hrow : (padRow w row).length = w := by
      have := hw row (by simp)
      simp only [padRow, List.length_append, List.length_replicate]
      omega
    have hrest := ih (h - 1) (by simp at hh; omega)
      (fun r hr => hw r (List.mem_cons_of_mem _ hr))
    rw [hrow, hrest]
    cases h with
    | zero => omega
    | succ h0 => simp [Nat.mul_succ]; ring

/-- Both planes of an in-bounds encoded image have the panel length. -/
theorem toBitplanes_length (w h : Nat) (img : List (List EinkColor))
    (hh : img.length ≤ h) (hw : ∀ row ∈ img, row.length ≤ w) :
    (toBitplanes w h img).primary.length = w * h ∧
      (toBitplanes w h img).accent.length = w * h := by
  have hlen := padImage_flatten_length w img h hh hw
  refine ⟨?_, ?_⟩ <;> simp only [toBitplanes, List.length_map] <;> exact hlen

/-- C9: For every image whose dimensions are within the panel bounds,
decoding the encoded payload reproduces the original BitplanePair exactly,
for both the run-length-encoded candidate and the bit-packed candidate
independently (encode followed by decode is the identity on in-bounds
images). -/
theorem c9_encode_decode_roundtrip (w h : Nat) (img : List (List EinkColor))
    (hh : img.length ≤ h) (hw : ∀ row ∈ img, row.length ≤ w) :
    rleDecodePair (w * h) (rleEncodePair (toBitplanes w h img)) =
        toBitplanes w h img ∧
      packedDecodePair (w * h) (packedEncodePair (toBitplanes w h img)) =
        toBitplanes w h img := by
  obtain ⟨hp, ha⟩ := toBitplanes_length w h img hh hw
  exact ⟨rleDecodePair_encodePair _ _ hp ha,
    packedDecodePair_encodePair _ _ hp ha⟩

/-- Witness for C9 at a concrete 3 by 2 panel and a one-row image using all
three colors worth of classification. -/
theorem c9_encode_decode_roundtrip_witness :
    ([[EinkColor.foreground, EinkColor.accent]] : List (List EinkColor)).length ≤ 2 ∧
      (rleDecodePair (3 * 2)
          (rleEncodePair (toBitplanes 3 2 [[EinkColor.foreground, EinkColor.accent]])) =
        toBitplanes 3 2 [[EinkColor.foreground, EinkColor.accent]] ∧
      packedDecodePair (3 * 2)
          (packedEncodePair (toBitplanes 3 2 [[EinkColor.foreground, EinkColor.accent]])) =
        toBitplanes 3 2 [[EinkColor.foreground, EinkColor.accent]]) :=
  ⟨by decide,
    c9_encode_decode_roundtrip 3 2 [[EinkColor.foreground, EinkColor.accent]]
      (by decide) (by decide)⟩

/-- Hex digit values are at most 15. -/
theorem hexDigitVal_le_15 (c : Char) : hexDigitVal c ≤ 15 := by
  unfold hexDigitVal
  split_ifs <;> omega

/-- On two hex digits, the strtoul semantics take the plain conversion
branch. -/
theorem strtoulHexPair_hex (c0 c1 : Char) (h0 : isHexDigitC c0 = true)
    (h1 : isHexDigitC c1 = true) :
    strtoulHexPair c0 c1 = some (16 * hexDigitVal c0 + hexDigitVal c1) := by
  unfold strtoulHexPair
  rw [if_pos ⟨h0, h1⟩]

/-- On even-length all-hex-digit input the conversion loop succeeds and
produces the pair values. -/
theorem hexPairsToBytes_allHex :
    ∀ (n : Nat) (l : List Char), l.length ≤ n → l.length % 2 = 0 →
      (∀ c ∈ l, isHexDigitC c = true) →
      hexPairsToBytes l = some (hexPairValues l) := by
  intro n
  induction n with
  | zero =>
    intro l h _ _
    have hl : l = [] := List.length_eq_zero.mp (Nat.le_zero.mp h)
    subst hl; rfl
  | succ m ih =>
    intro l hlen heven hhex
    rcases l with _ | ⟨c0, _ | ⟨c1, rest⟩⟩
    · rfl
    · simp at heven
    · have h0 := hhex c0 (by simp)
      have h1 := hhex c1 (by simp [List.mem_cons])
      have hb0 := hexDigitVal_le_15 c0
      have hb1 := hexDigitVal_le_15 c1
      have hv : ¬(255 < 16 * hexDigitVal c0 + hexDigitVal c1) := by omega
      have hr : hexPairsToBytes rest = some (hexPairValues rest) := by
        refine ih rest ?_ ?_ ?_
        · simp only [List.length_cons] at hlen; omega
        · simp only [List.length_cons] at heven ⊢; omega
        · intro c hc; exact hhex c (by simp [List.mem_cons, hc])
      simp only [hexPairsToBytes, strtoulHexPair_hex c0 c1 h0 h1, if_neg hv,
        hr, hexPairValues]
      rfl

/-- The pair values list has half the length of the input. -/
theorem hexPairValues_length :
    ∀ (n : Nat) (l : List Char), l.length ≤ n →
      (hexPairValues l).length = l.length / 2 := by
  intro n
  induction n with
  | zero =>
    intro l h
    have hl : l = [] := List.length_eq_zero.mp (Nat.le_zero.mp h)
    subst hl; rfl
  | succ m ih =>
    intro l hlen
    rcases l with _ | ⟨c0, _ | ⟨c1, rest⟩⟩
    · rfl
    · simp [hexPairValues]
    · simp only [hexPairValues, List.length_cons]
      rw [ih rest (by simp only [List.length_cons] at hlen; omega)]
      omega

/-- When the conversion loop succeeds it converted every pair: the result has
half the length of the input. -/
theorem hexPairsToBytes_length :
    ∀ (n : Nat) (l : List Char) (bs : List Nat), l.length ≤ n →
      hexPairsToBytes l = some bs → bs.length = l.length / 2 := by
  intro n
  induction n with
  | zero =>
    intro l bs h hsome
    have hl : l = [] := List.length_eq_zero.mp (Nat.le_zero.mp h)
    subst hl
    simp only [hexPairsToBytes, Option.some.injEq] at hsome
    subst hsome; rfl
  | succ m ih =>
    intro l bs hlen hsome
    rcases l with _ | ⟨c0, _ | ⟨c1, rest⟩⟩
    · simp only [hexPairsToBytes, Option.some.injEq] at hsome
      subst hsome; rfl
    · simp [hexPairsToBytes] at hsome
    · rcases hv : strtoulHexPair c0 c1 with _ | v
      · simp [hexPairsToBytes, hv] at hsome
      · by_cases hbig : 255 < v
        · simp [hexPairsToBytes, hv, hbig] at hsome
        · rcases hr : hexPairsToBytes rest with _ | bs0
          · simp [hexPairsToBytes, hv, hbig, hr] at hsome
          · simp only [hexPairsToBytes, hv, if_neg hbig, hr] at hsome
            rw [show Option.map (fun bs => v :: bs) (some bs0) = some (v :: bs0) from rfl] at hsome
            rw [Option.some.injEq] at hsome
            subst hsome
            simp only [List.length_cons]
            rw [ih rest bs0 (by simp only [List.length_cons] at hlen; omega) hr]
            omega

/-- Shared helper: a packet message for the active transfer whose payload
does not convert (including an empty payload) refreshes the inactivity timer,
publishes error_packet_format for the active target, and changes nothing
else. -/
theorem packetCmd_malformed (s : GwState) (mac : String) (hex : List Char)
    (now : Nat) (h1 : s.transferInProgress = true)
    (h2 : mac = s.currentTargetMac) (h3 : hexBytes hex = []) :
    packetCmd s mac hex now =
      ({ s with lastActionTime := now },
        [("error_packet_format", s.currentTargetMac)]) := by
  unfold packetCmd
  simp [h1, h2, h3]

/-- C10: hexStringToBytes is total and all-or-nothing: odd-length input gives
the empty vector; non-empty even-length all-hex input gives exactly
length over 2 bytes where byte i is the value of the i-th two-character pair;
the result is never a partial conversion; the empty input also gives the
empty vector; and at the call site an empty payload is treated exactly like a
malformed one, as a packet-format error. -/
theorem c10_hexStringToBytes_total :
    (∀ l : List Char, l.length % 2 = 1 → hexBytes l = []) ∧
    (∀ l : List Char, l ≠ [] → l.length % 2 = 0 →
      (∀ c ∈ l, isHexDigitC c = true) →
      hexBytes l = hexPairValues l ∧ (hexBytes l).length = l.length / 2) ∧
    (∀ l : List Char, hexBytes l = [] ∨ (hexBytes l).length = l.length / 2) ∧
    hexBytes [] = [] ∧
    (∀ (s : GwState) (mac : String) (now : Nat),
      s.transferInProgress = true → mac = s.currentTargetMac →
      packetCmd s mac [] now =
        ({ s with lastActionTime := now },
          [("error_packet_format", s.currentTargetMac)])) := by
  refine ⟨?_, ?_, ?_, rfl, ?_⟩
  · intro l hodd
    unfold hexBytes
    rw [if_pos (by omega)]
  · intro l _ heven hhex
    have hsome := hexPairsToBytes_allHex l.length l le_rfl heven hhex
    have hval : hexBytes l = hexPairValues l := by
      unfold hexBytes
      rw [if_neg (by omega), hsome]
    refine ⟨hval, ?_⟩
    rw [hval]
    exact hexPairValues_length l.length l le_rfl
  · intro l
    unfold hexBytes
    by_cases hodd : l.length % 2 ≠ 0
    · rw [if_pos hodd]; exact Or.inl rfl
    · rw [if_neg hodd]
      rcases hr : hexPairsToBytes l with _ | bs
      · exact Or.inl rfl
      · exact Or.inr (hexPairsToBytes_length l.length l bs le_rfl hr)
  · intro s mac now h1 h2
    exact packetCmd_malformed s mac [] now h1 h2 rfl

/-- Concrete active-session state used by witnesses and counterexamples. -/
def sessionState (mac : String) (expected : Nat) : GwState :=
  { initialGw with
      currentTargetMac := mac
    , transferInProgress := true
    , bleConnected := true
    , expectedPacketCount := expected }

/-- Witness for C10 at concrete inputs. -/
theorem c10_hexStringToBytes_total_witness :
    hexBytes ['a', 'b', 'c'] = [] ∧
    (hexBytes ['0', 'a', 'f', 'f'] = hexPairValues ['0', 'a', 'f', 'f'] ∧
      (hexBytes ['0', 'a', 'f', 'f']).length = (['0', 'a', 'f', 'f'] : List Char).length / 2) ∧
    (hexBytes ['z', 'z'] = [] ∨ (hexBytes ['z', 'z']).length = (['z', 'z'] : List Char).length / 2) ∧
    hexBytes [] = [] ∧
    packetCmd (sessionState "AA:BB:CC:DD:EE:FF" 3) "AA:BB:CC:DD:EE:FF" [] 7 =
      ({ sessionState "AA:BB:CC:DD:EE:FF" 3 with lastActionTime := 7 },
        [("error_packet_format", (sessionState "AA:BB:CC:DD:EE:FF" 3).currentTargetMac)]) :=
  ⟨c10_hexStringToBytes_total.1 ['a', 'b', 'c'] (by decide),
    c10_hexStringToBytes_total.2.1 ['0', 'a', 'f', 'f'] (by decide) (by decide) (by decide),
    c10_hexStringToBytes_total.2.2.1 ['z', 'z'],
    c10_hexStringToBytes_total.2.2.2.1,
    c10_hexStringToBytes_total.2.2.2.2 (sessionState "AA:BB:CC:DD:EE:FF" 3)
      "AA:BB:CC:DD:EE:FF" 7 rfl rfl⟩

/-- Discrete input events of the orchestrator: the two bus commands handled
by mqttCallback, and one iteration of the transfer logic of loop() with the
BLE outcomes of that iteration. -/
inductive GwEvent where
  | start (mac : String) (macOk : Bool) (total : Option Nat) (now : Nat) (cr : ConnRes)
  | packet (mac : String) (hex : List Char) (now : Nat)
  | tick (now : Nat) (cr : ConnRes) (writeOk : Bool)
deriving Repr, DecidableEq

/-- Dispatch of one event to the translated handler. -/
def gwStep (s : GwState) (e : GwEvent) : GwState × GwLog :=
  match e with
  | GwEvent.start mac macOk total now cr => startCmd s mac macOk total now cr
  | GwEvent.packet mac hex now => packetCmd s mac hex now
  | GwEvent.tick now cr writeOk => loopStep s now cr writeOk

/-- Run of a sequence of events, accumulating the published statuses. -/
def gwRun : GwState → List GwEvent → GwState × GwLog
  | s, [] => (s, [])
  | s, e :: es =>
    let r := gwStep s e
    let r2 := gwRun r.1 es
    (r2.1, r.2 ++ r2.2)

/-- C4: For every active session in which the queue is empty, fewer packets
than expectedCount have been received, and no activity has occurred for
longer than PACKET_RECEIVE_TIMEOUT_MS, the loop iteration aborts the session
with the packet-timeout outcome, emits error_packet_timeout for the target,
and force-disconnects. -/
theorem c4_packet_timeout (s : GwState) (now : Nat) (cr : ConnRes) (w : Bool)
    (h1 : s.transferInProgress = true) (h2 : s.transferAborted = false)
    (h3 : s.packetQueue = []) (h4 : s.packetsReceivedCount < s.expectedPacketCount)
    (h5 : PACKET_RECEIVE_TIMEOUT_MS < now - s.lastActionTime) :
    loopStep s now cr w =
      ({ s with transferInProgress := false
              , transferAborted := true
              , bleConnected := false },
        [("error_packet_timeout", s.currentTargetMac)]) := by
  unfold loopStep
  rw [if_pos h1, if_neg (by simp [h2]), if_pos ⟨h3, h4, h5⟩]

/-- Witness for C4: a stalled session for a concrete target, three packets
expected, none received, last activity at time 0, observed at time 20000. -/
theorem c4_packet_timeout_witness :
    loopStep (sessionState "AA:BB:CC:DD:EE:FF" 3) 20000 ConnRes.ok true =
      ({ sessionState "AA:BB:CC:DD:EE:FF" 3 with
          transferInProgress := false
        , transferAborted := true
        , bleConnected := false },
        [("error_packet_timeout", (sessionState "AA:BB:CC:DD:EE:FF" 3).currentTargetMac)]) :=
  c4_packet_timeout (sessionState "AA:BB:CC:DD:EE:FF" 3) 20000 ConnRes.ok true
    rfl rfl rfl (by decide) (by decide)

/-- C6: While a session for identity A is active and incomplete, a start
request for a different identity B is rejected with no status published, and
the queue, received count, written count, retry counter, target identity,
in-progress flag, expected count and link state of the session for A are all
unchanged. -/
theorem c6_start_other_mac_rejected (s : GwState) (macB : String) (macOk : Bool)
    (total : Option Nat) (now : Nat) (cr : ConnRes)
    (h1 : s.transferInProgress = true) (h2 : macB ≠ s.currentTargetMac) :
    (startCmd s macB macOk total now cr).1.packetQueue = s.packetQueue ∧
    (startCmd s macB macOk total now cr).1.packetsReceivedCount = s.packetsReceivedCount ∧
    (startCmd s macB macOk total now cr).1.packetsWrittenCount = s.packetsWrittenCount ∧
    (startCmd s macB macOk total now cr).1.bleConnectRetries = s.bleConnectRetries ∧
    (startCmd s macB macOk total now cr).1.currentTargetMac = s.currentTargetMac ∧
    (startCmd s macB macOk total now cr).1.transferInProgress = true ∧
    (startCmd s macB macOk total now cr).1.expectedPacketCount = s.expectedPacketCount ∧
    (startCmd s macB macOk total now cr).1.bleConnected = s.bleConnected ∧
    (startCmd s macB macOk total now cr).2 = [] := by
  have hrej : startCmd s macB macOk total now cr = ({ s with lastActionTime := now }, []) := by
    unfold startCmd
    rw [if_pos ⟨h1, h2⟩]
  rw [hrej]
  simp [h1]

/-- Witness for C6: a busy session for one target rejects a start for a
second target. -/
theorem c6_start_other_mac_rejected_witness :
    (startCmd (sessionState "AA:BB:CC:DD:EE:FF" 3) "11:22:33:44:55:66" true (some 1) 9 ConnRes.ok).1.packetQueue =
        (sessionState "AA:BB:CC:DD:EE:FF" 3).packetQueue ∧
      (startCmd (sessionState "AA:BB:CC:DD:EE:FF" 3) "11:22:33:44:55:66" true (some 1) 9 ConnRes.ok).1.packetsReceivedCount =
        (sessionState "AA:BB:CC:DD:EE:FF" 3).packetsReceivedCount ∧
      (startCmd (sessionState "AA:BB:CC:DD:EE:FF" 3) "11:22:33:44:55:66" true (some 1) 9 ConnRes.ok).1.packetsWrittenCount =
        (sessionState "AA:BB:CC:DD:EE:FF" 3).packetsWrittenCount ∧
      (startCmd (sessionState "AA:BB:CC:DD:EE:FF" 3) "11:22:33:44:55:66" true (some 1) 9 ConnRes.ok).1.bleConnectRetries =
        (sessionState "AA:BB:CC:DD:EE:FF" 3).bleConnectRetries ∧
      (startCmd (sessionState "AA:BB:CC:DD:EE:FF" 3) "11:22:33:44:55:66" true (some 1) 9 ConnRes.ok).1.currentTargetMac =
        (sessionState "AA:BB:CC:DD:EE:FF" 3).currentTargetMac ∧
      (startCmd (sessionState "AA:BB:CC:DD:EE:FF" 3) "11:22:33:44:55:66" true (some 1) 9 ConnRes.ok).1.transferInProgress = true ∧
      (startCmd (sessionState "AA:BB:CC:DD:EE:FF" 3) "11:22:33:44:55:66" true (some 1) 9 ConnRes.ok).1.expectedPacketCount =
        (sessionState "AA:BB:CC:DD:EE:FF" 3).expectedPacketCount ∧
      (startCmd (sessionState "AA:BB:CC:DD:EE:FF" 3) "11:22:33:44:55:66" true (some 1) 9 ConnRes.ok).1.bleConnected =
        (sessionState "AA:BB:CC:DD:EE:FF" 3).bleConnected ∧
      (startCmd (sessionState "AA:BB:CC:DD:EE:FF" 3) "11:22:33:44:55:66" true (some 1) 9 ConnRes.ok).2 = [] :=
  c6_start_other_mac_rejected (sessionState "AA:BB:CC:DD:EE:FF" 3)
    "11:22:33:44:55:66" true (some 1) 9 ConnRes.ok rfl (by decide)

/-- C8 counterexample: a malformed packet for the active target does publish
the packet-format error, but the session state is not unchanged in all other
respects: the inactivity timer was refreshed by the message before payload
validation (src/unnamed/part_002 lines 121-125). -/
theorem c8_counterexample :
    (packetCmd (sessionState "AA:BB:CC:DD:EE:FF" 3) "AA:BB:CC:DD:EE:FF" ['z', 'z'] 5).2 =
        [("error_packet_format", "AA:BB:CC:DD:EE:FF")] ∧
      (packetCmd (sessionState "AA:BB:CC:DD:EE:FF" 3) "AA:BB:CC:DD:EE:FF" ['z', 'z'] 5).1.lastActionTime = 5 ∧
      (sessionState "AA:BB:CC:DD:EE:FF" 3).lastActionTime = 0 ∧
      ¬((packetCmd (sessionState "AA:BB:CC:DD:EE:FF" 3) "AA:BB:CC:DD:EE:FF" ['z', 'z'] 5).1 =
        sessionState "AA:BB:CC:DD:EE:FF" 3) := by
  decide

/-- C8 amended: a packet message for the active target whose payload does not
convert to bytes is dropped without being enqueued and without incrementing
the received count, error_packet_format is published for the current target,
and the session continues with every field unchanged except the last-activity
timestamp, which the message refreshed before validation. -/
theorem c8_format_error_drops_packet (s : GwState) (mac : String)
    (hex : List Char) (now : Nat) (h1 : s.transferInProgress = true)
    (h2 : mac = s.currentTargetMac) (h3 : hexBytes hex = []) :
    packetCmd s mac hex now =
      ({ s with lastActionTime := now },
        [("error_packet_format", s.currentTargetMac)]) :=
  packetCmd_malformed s mac hex now h1 h2 h3

/-- Witness for the amended C8 at a concrete state and malformed payload. -/
theorem c8_format_error_drops_packet_witness :
    packetCmd (sessionState "AA:BB:CC:DD:EE:FF" 3) "AA:BB:CC:DD:EE:FF" ['z', 'z'] 5 =
      ({ sessionState "AA:BB:CC:DD:EE:FF" 3 with lastActionTime := 5 },
        [("error_packet_format", (sessionState "AA:BB:CC:DD:EE:FF" 3).currentTargetMac)]) :=
  c8_format_error_drops_packet (sessionState "AA:BB:CC:DD:EE:FF" 3)
    "AA:BB:CC:DD:EE:FF" ['z', 'z'] 5 rfl rfl (by decide)

/-- C2: evaluation of the embedded code on the trace start(A,2), one admitted
packet, one successful write, then a duplicate start(A,2).  The duplicate
start clears the queue and resets the received count (src/unnamed/part_002
lines 185-188) but deliberately leaves the written count to the main loop
cleanup (line 189), which never runs on this path, so after the duplicate
start the session has written count 1 and received count 0: the invariant
written-count less-or-equal received-count fails, and the queue (empty) does
not hold received-count minus written-count packets. -/
theorem c2_invariant_violation_trace :
    (gwRun initialGw
        [GwEvent.start "AA:BB:CC:DD:EE:FF" true (some 2) 0 ConnRes.ok,
         GwEvent.packet "AA:BB:CC:DD:EE:FF" ['0', 'a'] 0,
         GwEvent.tick 0 ConnRes.ok true,
         GwEvent.start "AA:BB:CC:DD:EE:FF" true (some 2) 0 ConnRes.ok]).1.packetsWrittenCount = 1 ∧
      (gwRun initialGw
        [GwEvent.start "AA:BB:CC:DD:EE:FF" true (some 2) 0 ConnRes.ok,
         GwEvent.packet "AA:BB:CC:DD:EE:FF" ['0', 'a'] 0,
         GwEvent.tick 0 ConnRes.ok true,
         GwEvent.start "AA:BB:CC:DD:EE:FF" true (some 2) 0 ConnRes.ok]).1.packetsReceivedCount = 0 ∧
      (gwRun initialGw
        [GwEvent.start "AA:BB:CC:DD:EE:FF" true (some 2) 0 ConnRes.ok,
         GwEvent.packet "AA:BB:CC:DD:EE:FF" ['0', 'a'] 0,
         GwEvent.tick 0 ConnRes.ok true,
         GwEvent.start "AA:BB:CC:DD:EE:FF" true (some 2) 0 ConnRes.ok]).1.packetQueue = [] ∧
      (gwRun initialGw
        [GwEvent.start "AA:BB:CC:DD:EE:FF" true (some 2) 0 ConnRes.ok,
         GwEvent.packet "AA:BB:CC:DD:EE:FF" ['0', 'a'] 0,
         GwEvent.tick 0 ConnRes.ok true,
         GwEvent.start "AA:BB:CC:DD:EE:FF" true (some 2) 0 ConnRes.ok]).1.transferInProgress = true := by
  decide

/-- State of a fresh session for mac expecting N packets whose link is still
down, with k counted connect retries. -/
def connWaitState (mac : String) (N : Nat) (k : Nat) : GwState :=
  { initialGw with
      currentTargetMac := mac
    , transferInProgress := true
    , expectedPacketCount := N
    , bleConnectRetries := k }

/-- Run of a start command for mac expecting N packets followed by k loop
iterations, with every BLE connect attempt failing. -/
def connFailRun (mac : String) (N : Nat) (k : Nat) : GwState × GwLog :=
  gwRun initialGw (GwEvent.start mac true (some N) 0 ConnRes.connFail ::
    List.replicate k (GwEvent.tick 0 ConnRes.connFail true))

/-- One-step unfolding of gwRun on a cons. -/
theorem gwRun_cons (s : GwState) (e : GwEvent) (es : List GwEvent) :
    gwRun s (e :: es) =
      ((gwRun (gwStep s e).1 es).1, (gwStep s e).2 ++ (gwRun (gwStep s e).1 es).2) :=
  rfl

/-- A fresh start whose immediate connect attempt fails leaves the session
waiting for the link with zero counted retries. -/
theorem startCmd_fresh_connFail (mac : String) (N : Nat) (hN : N ≠ 0) :
    startCmd initialGw mac true (some N) 0 ConnRes.connFail =
      (connWaitState mac N 0, [("starting", mac), ("connecting_ble", mac)]) := by
  unfold startCmd connectBLE connWaitState initialGw
  simp [hN]

/-- A fresh start whose immediate connect attempt succeeds produces a
connected session. -/
theorem startCmd_fresh_ok (mac : String) (N : Nat) (hN : N ≠ 0) :
    startCmd initialGw mac true (some N) 0 ConnRes.ok =
      (sessionState mac N,
        [("starting", mac), ("connecting_ble", mac), ("connected_ble", mac)]) := by
  unfold startCmd connectBLE sessionState initialGw
  simp [hN]

/-- A failing connect attempt below the retry bound increments the retry
counter and ends the iteration. -/
theorem tick_connFail_retry (mac : String) (N k : Nat)
    (hk : ¬(MAX_BLE_CONNECT_RETRIES ≤ k + 1)) :
    loopStep (connWaitState mac N k) 0 ConnRes.connFail true =
      (connWaitState mac N (k + 1), [("connecting_ble", mac)]) := by
  unfold loopStep connPhase connectBLE connWaitState initialGw
  simp [hk]

/-- A failing connect attempt that reaches the retry bound aborts the
transfer with the connect-failed error. -/
theorem tick_connFail_abort (mac : String) (N k : Nat)
    (hk : MAX_BLE_CONNECT_RETRIES ≤ k + 1) :
    loopStep (connWaitState mac N k) 0 ConnRes.connFail true =
      ({ connWaitState mac N k with
          bleConnectRetries := k + 1
        , transferAborted := true
        , transferInProgress := false },
        [("connecting_ble", mac), ("error_ble_connect_failed", mac)]) := by
  unfold loopStep connPhase connectBLE connWaitState initialGw
  simp [hk]

/-- The packet-writing section never changes the retry counter. -/
theorem writePhase_retries (s : GwState) (now : Nat) (w : Bool) (l : GwLog) :
    (writePhase s now w l).1.bleConnectRetries = s.bleConnectRetries := by
  unfold writePhase
  split
  · rfl
  · dsimp only
    split_ifs <;> rfl

/-- C3 counterexample: with target AA:BB:CC:DD:EE:FF and expected count 1,
when every connect attempt fails, the transfer is aborted only after 5
connect attempts in total (the immediate attempt made while handling start,
plus MAX_BLE_CONNECT_RETRIES = 4 attempts counted by the loop), not after 4:
after 4 total attempts (start plus 3 loop iterations) the transfer is still
alive, and after the 4th loop iteration the log holds 5 connecting_ble
statuses next to the error. -/
theorem c3_counterexample :
    ((connFailRun "AA:BB:CC:DD:EE:FF" 1 4).2.count
        ("connecting_ble", "AA:BB:CC:DD:EE:FF") = 5) ∧
      ¬((connFailRun "AA:BB:CC:DD:EE:FF" 1 4).2.count
        ("connecting_ble", "AA:BB:CC:DD:EE:FF") = MAX_BLE_CONNECT_RETRIES) ∧
      ((connFailRun "AA:BB:CC:DD:EE:FF" 1 4).2.count
        ("error_ble_connect_failed", "AA:BB:CC:DD:EE:FF") = 1) ∧
      (connFailRun "AA:BB:CC:DD:EE:FF" 1 4).1.transferAborted = true ∧
      (connFailRun "AA:BB:CC:DD:EE:FF" 1 4).1.transferInProgress = false ∧
      ((connFailRun "AA:BB:CC:DD:EE:FF" 1 3).2.count
        ("connecting_ble", "AA:BB:CC:DD:EE:FF") = 4) ∧
      (connFailRun "AA:BB:CC:DD:EE:FF" 1 3).1.transferAborted = false ∧
      (connFailRun "AA:BB:CC:DD:EE:FF" 1 3).1.transferInProgress = true := by
  decide

/-- C3 amended: for every target and expected count N greater than 0, when
every connect attempt fails the transfer is aborted with
error_ble_connect_failed and a forced disconnect exactly at the
MAX_BLE_CONNECT_RETRIES-th loop attempt — the 5th connect attempt in total,
counting the immediate attempt made while handling start, whose failure the
retry counter does not count — not earlier; and a successful connect attempt
resets the retry counter to 0. -/
theorem c3_connect_retry_bound (mac : String) (N : Nat) (hN : 0 < N) :
    (connFailRun mac N MAX_BLE_CONNECT_RETRIES =
      ({ connWaitState mac N MAX_BLE_CONNECT_RETRIES with
          transferAborted := true
        , transferInProgress := false },
        [("starting", mac), ("connecting_ble", mac), ("connecting_ble", mac),
         ("connecting_ble", mac), ("connecting_ble", mac), ("connecting_ble", mac),
         ("error_ble_connect_failed", mac)])) ∧
    (∀ k, k < MAX_BLE_CONNECT_RETRIES →
      (connFailRun mac N k).1 = connWaitState mac N k ∧
      (connFailRun mac N k).2 =
        ("starting", mac) :: List.replicate (k + 1) ("connecting_ble", mac)) ∧
    (∀ (s : GwState) (now : Nat) (w : Bool),
      s.transferInProgress = true → s.transferAborted = false →
      ¬(s.packetQueue = [] ∧ s.packetsReceivedCount < s.expectedPacketCount ∧
          PACKET_RECEIVE_TIMEOUT_MS < now - s.lastActionTime) →
      (loopStep s now ConnRes.ok w).1.bleConnectRetries = 0) := by
  have hN0 : N ≠ 0 := by omega
  have e0 := startCmd_fresh_connFail mac N hN0
  have t0 := tick_connFail_retry mac N 0 (by decide)
  have t1 := tick_connFail_retry mac N 1 (by decide)
  have t2 := tick_connFail_retry mac N 2 (by decide)
  have t3 := tick_connFail_abort mac N 3 (by decide)
  refine ⟨?_, ?_, ?_⟩
  · show gwRun initialGw _ = _
    rw [show List.replicate MAX_BLE_CONNECT_RETRIES (GwEvent.tick 0 ConnRes.connFail true) =
      [GwEvent.tick 0 ConnRes.connFail true, GwEvent.tick 0 ConnRes.connFail true,
       GwEvent.tick 0 ConnRes.connFail true, GwEvent.tick 0 ConnRes.connFail true] from rfl]
    rw [gwRun_cons]
    show (_ : GwState × GwLog) = _
    rw [show gwStep initialGw (GwEvent.start mac true (some N) 0 ConnRes.connFail) =
      (connWaitState mac N 0, [("starting", mac), ("connecting_ble", mac)]) from e0]
    dsimp only
    rw [gwRun_cons]
    rw [show gwStep (connWaitState mac N 0) (GwEvent.tick 0 ConnRes.connFail true) =
      (connWaitState mac N 1, [("connecting_ble", mac)]) from t0]
    dsimp only
    rw [gwRun_cons]
    rw [show gwStep (connWaitState mac N 1) (GwEvent.tick 0 ConnRes.connFail true) =
      (connWaitState mac N 2, [("connecting_ble", mac)]) from t1]
    dsimp only
    rw [gwRun_cons]
    rw [show gwStep (connWaitState mac N 2) (GwEvent.tick 0 ConnRes.connFail true) =
      (connWaitState mac N 3, [("connecting_ble", mac)]) from t2]
    dsimp only
    rw [gwRun_cons]
    rw [show gwStep (connWaitState mac N 3) (GwEvent.tick 0 ConnRes.connFail true) =
      ({ connWaitState mac N 3 with
          bleConnectRetries := 4
        , transferAborted := true
        , transferInProgress := false },
        [("connecting_ble", mac), ("error_ble_connect_failed", mac)]) from t3]
    dsimp only
    rw [show gwRun ({ connWaitState mac N 3 with
          bleConnectRetries := 4
        , transferAborted := true
        , transferInProgress := false }) [] =
      ({ connWaitState mac N 3 with
          bleConnectRetries := 4
        , transferAborted := true
        , transferInProgress := false }, []) from rfl]
    constructor
  · intro k hk
    have g0 : gwStep initialGw (GwEvent.start mac true (some N) 0 ConnRes.connFail) =
        (connWaitState mac N 0, [("starting", mac), ("connecting_ble", mac)]) := e0
    have g1 : gwStep (connWaitState mac N 0) (GwEvent.tick 0 ConnRes.connFail true) =
        (connWaitState mac N 1, [("connecting_ble", mac)]) := t0
    have g2 : gwStep (connWaitState mac N 1) (GwEvent.tick 0 ConnRes.connFail true) =
        (connWaitState mac N 2, [("connecting_ble", mac)]) := t1
    have g3 : gwStep (connWaitState mac N 2) (GwEvent.tick 0 ConnRes.connFail true) =
        (connWaitState mac N 3, [("connecting_ble", mac)]) := t2
    have hk4 : k < 4 := hk
    interval_cases k
    · refine ⟨?_, ?_⟩ <;>
      · unfold connFailRun
        rw [show List.replicate 0 (GwEvent.tick 0 ConnRes.connFail true) = [] from rfl]
        rw [gwRun_cons, g0]
        rfl
    · refine ⟨?_, ?_⟩ <;>
      · unfold connFailRun
        rw [show List.replicate 1 (GwEvent.tick 0 ConnRes.connFail true) =
          [GwEvent.tick 0 ConnRes.connFail true] from rfl]
        rw [gwRun_cons, g0]
        dsimp only
        rw [gwRun_cons, g1]
        rfl
    · refine ⟨?_, ?_⟩ <;>
      · unfold connFailRun
        rw [show List.replicate 2 (GwEvent.tick 0 ConnRes.connFail true) =
          [GwEvent.tick 0 ConnRes.connFail true, GwEvent.tick 0 ConnRes.connFail true] from rfl]
        rw [gwRun_cons, g0]
        dsimp only
        rw [gwRun_cons, g1]
        dsimp only
        rw [gwRun_cons, g2]
        rfl
    · refine ⟨?_, ?_⟩ <;>
      · unfold connFailRun
        rw [show List.replicate 3 (GwEvent.tick 0 ConnRes.connFail true) =
          [GwEvent.tick 0 ConnRes.connFail true, GwEvent.tick 0 ConnRes.connFail true,
           GwEvent.tick 0 ConnRes.connFail true] from rfl]
        rw [gwRun_cons, g0]
        dsimp only
        rw [gwRun_cons, g1]
        dsimp only
        rw [gwRun_cons, g2]
        dsimp only
        rw [gwRun_cons, g3]
        rfl
  · intro s now w h1 h2 h3
    unfold loopStep
    rw [if_pos h1, if_neg (by simp [h2]), if_neg h3]
    by_cases hc : s.bleConnected = true
    · unfold connPhase
      rw [if_neg (by simp [hc])]
      simp [writePhase_retries]
    · have hconn : connectBLE s s.currentTargetMac ConnRes.ok =
          ({ s with bleConnected := true },
            [("connecting_ble", s.currentTargetMac),
             ("connected_ble", s.currentTargetMac)], true) := by
        unfold connectBLE
        rw [if_neg (by simp [hc])]
      unfold connPhase
      rw [if_pos (by simp [hc]), hconn]
      simp [writePhase_retries]

/-- Witness for the amended C3 at a concrete target and expected count 1. -/
theorem c3_connect_retry_bound_witness :
    (connFailRun "AA:BB:CC:DD:EE:FF" 1 MAX_BLE_CONNECT_RETRIES =
      ({ connWaitState "AA:BB:CC:DD:EE:FF" 1 MAX_BLE_CONNECT_RETRIES with
          transferAborted := true
        , transferInProgress := false },
        [("starting", "AA:BB:CC:DD:EE:FF"), ("connecting_ble", "AA:BB:CC:DD:EE:FF"),
         ("connecting_ble", "AA:BB:CC:DD:EE:FF"), ("connecting_ble", "AA:BB:CC:DD:EE:FF"),
         ("connecting_ble", "AA:BB:CC:DD:EE:FF"), ("connecting_ble", "AA:BB:CC:DD:EE:FF"),
         ("error_ble_connect_failed", "AA:BB:CC:DD:EE:FF")])) ∧
    (∀ k, k < MAX_BLE_CONNECT_RETRIES →
      (connFailRun "AA:BB:CC:DD:EE:FF" 1 k).1 = connWaitState "AA:BB:CC:DD:EE:FF" 1 k ∧
      (connFailRun "AA:BB:CC:DD:EE:FF" 1 k).2 =
        ("starting", "AA:BB:CC:DD:EE:FF") ::
          List.replicate (k + 1) ("connecting_ble", "AA:BB:CC:DD:EE:FF")) ∧
    (∀ (s : GwState) (now : Nat) (w : Bool),
      s.transferInProgress = true → s.transferAborted = false →
      ¬(s.packetQueue = [] ∧ s.packetsReceivedCount < s.expectedPacketCount ∧
          PACKET_RECEIVE_TIMEOUT_MS < now - s.lastActionTime) →
      (loopStep s now ConnRes.ok w).1.bleConnectRetries = 0) :=
  c3_connect_retry_bound "AA:BB:CC:DD:EE:FF" 1 (by decide)

/-- C5: a failed link write terminates the session.  Conjuncts: (1) the
write-failure iteration publishes error_write for the target, sets the abort
flag, force-disconnects, marks the transfer not in progress, and leaves the
queue as it was (the failed packet is not re-queued and not popped); (2) once
the transfer is not in progress, a loop iteration only performs cleanup — it
never writes (the written log gains no entry) and never resumes the session;
(3) the only way the transfer becomes in progress again is an accepted start,
which begins with an empty queue and an empty written log, so the failed
session is never resumed and its leftover packet is discarded unwritten;
(4) packets arriving while no transfer is in progress are dropped without any
state change. -/
theorem c5_write_failure_terminates :
    (∀ (s : GwState) (now : Nat) (cr : ConnRes),
      s.transferInProgress = true → s.transferAborted = false →
      s.bleConnected = true → s.packetQueue ≠ [] →
      loopStep s now cr false =
        ({ s with
            bleConnectRetries := 0
          , transferAborted := true
          , bleConnected := false
          , transferInProgress := false },
          [("error_write", s.currentTargetMac)])) ∧
    (∀ (s : GwState) (now : Nat) (cr : ConnRes) (w : Bool),
      s.transferInProgress = false →
      loopStep s now cr w = cleanupPhase s ∧
      ((cleanupPhase s).1.writtenLog = [] ∨ (cleanupPhase s).1.writtenLog = s.writtenLog) ∧
      (cleanupPhase s).1.transferInProgress = false) ∧
    (∀ (s : GwState) (mac : String) (macOk : Bool) (total : Option Nat)
        (now : Nat) (cr : ConnRes),
      s.transferInProgress = false →
      (startCmd s mac macOk total now cr).1.transferInProgress = true →
      (startCmd s mac macOk total now cr).1.packetQueue = [] ∧
      (startCmd s mac macOk total now cr).1.writtenLog = []) ∧
    (∀ (s : GwState) (mac : String) (hex : List Char) (now : Nat),
      s.transferInProgress = false → packetCmd s mac hex now = (s, [])) := by
  refine ⟨?_, ?_, ?_, ?_⟩
  · intro s now cr h1 h2 h3 hq
    unfold loopStep
    rw [if_pos h1, if_neg (by simp [h2]), if_neg (by simp [hq])]
    unfold connPhase
    rw [if_neg (by simp [h3])]
    rw [writePhase.eq_def]
    rcases hqe : s.packetQueue with _ | ⟨p, rest⟩
    · exact absurd hqe hq
    · dsimp only
      rw [if_pos h3, if_neg (show ¬(false = true) by simp)]
      simp
  · intro s now cr w h1
    refine ⟨?_, ?_, ?_⟩
    · unfold loopStep
      rw [if_neg (by simp [h1])]
    · unfold cleanupPhase disconnectBLE
      by_cases hm : s.currentTargetMac = ""
      · rw [if_neg (by simp [hm])]
        exact Or.inr rfl
      · rw [if_pos (by simp [hm])]
        exact Or.inl rfl
    · unfold cleanupPhase disconnectBLE
      by_cases hm : s.currentTargetMac = ""
      · rw [if_neg (by simp [hm])]
        exact h1
      · rw [if_pos (by simp [hm])]
        exact h1
  · intro s mac macOk total now cr h1
    rcases total with _ | n
    · simp [startCmd, h1]
    · by_cases hn : n = 0
      · simp [startCmd, h1, hn]
      · by_cases hmk : macOk = true
        · by_cases hc : s.bleConnected = true
          · simp [startCmd, h1, hn, hmk, hc]
          · rcases cr <;> simp [startCmd, connectBLE, h1, hn, hmk, hc]
        · simp [startCmd, h1, hn, hmk]
  · intro s mac hex now h1
    simp [packetCmd, h1]

/-- Witness for C5 at a concrete aborting session with one queued packet and
concrete idle states. -/
theorem c5_write_failure_terminates_witness :
    (loopStep { sessionState "AA:BB:CC:DD:EE:FF" 3 with packetQueue := [[10]] } 0 ConnRes.ok false =
      ({ { sessionState "AA:BB:CC:DD:EE:FF" 3 with packetQueue := [[10]] } with
          bleConnectRetries := 0
        , transferAborted := true
        , bleConnected := false
        , transferInProgress := false },
        [("error_write", ({ sessionState "AA:BB:CC:DD:EE:FF" 3 with packetQueue := [[10]] } : GwState).currentTargetMac)])) ∧
    (loopStep initialGw 5 ConnRes.ok true = cleanupPhase initialGw ∧
      ((cleanupPhase initialGw).1.writtenLog = [] ∨
        (cleanupPhase initialGw).1.writtenLog = initialGw.writtenLog) ∧
      (cleanupPhase initialGw).1.transferInProgress = false) ∧
    ((startCmd initialGw "AA:BB:CC:DD:EE:FF" true (some 2) 0 ConnRes.ok).1.transferInProgress = true →
      (startCmd initialGw "AA:BB:CC:DD:EE:FF" true (some 2) 0 ConnRes.ok).1.packetQueue = [] ∧
      (startCmd initialGw "AA:BB:CC:DD:EE:FF" true (some 2) 0 ConnRes.ok).1.writtenLog = []) ∧
    packetCmd initialGw "AA:BB:CC:DD:EE:FF" ['0', 'a'] 0 = (initialGw, []) :=
  ⟨c5_write_failure_terminates.1 { sessionState "AA:BB:CC:DD:EE:FF" 3 with packetQueue := [[10]] }
      0 ConnRes.ok rfl rfl rfl (by decide),
    c5_write_failure_terminates.2.1 initialGw 5 ConnRes.ok true rfl,
    c5_write_failure_terminates.2.2.1 initialGw "AA:BB:CC:DD:EE:FF" true (some 2) 0 ConnRes.ok rfl,
    c5_write_failure_terminates.2.2.2 initialGw "AA:BB:CC:DD:EE:FF" ['0', 'a'] 0 rfl⟩

/-- FIFO accounting invariant: the packets written so far followed by the
packets still queued are exactly the packets admitted, in admission order. -/
def fifoInv (s : GwState) : Prop :=
  s.writtenLog ++ s.packetQueue = s.admittedLog

/-- The start handler preserves the FIFO accounting invariant. -/
theorem startCmd_fifo (s : GwState) (mac : String) (macOk : Bool)
    (total : Option Nat) (now : Nat) (cr : ConnRes) (h : fifoInv s) :
    fifoInv (startCmd s mac macOk total now cr).1 := by
  unfold fifoInv at h ⊢
  by_cases hip : s.transferInProgress = true
  · by_cases hmac : mac = s.currentTargetMac
    · have hbusy : ¬(s.transferInProgress = true ∧ mac ≠ s.currentTargetMac) := by
        simp [hmac]
      rcases total with _ | n
      · simp [startCmd, disconnectBLE, hbusy, hip, hmac, h]
      · by_cases hn : n = 0
        · simp [startCmd, disconnectBLE, hbusy, hip, hmac, hn, h]
        · by_cases hmk : macOk = true
          · rcases cr <;>
              simp [startCmd, connectBLE, disconnectBLE, hbusy, hip, hmac, hn, hmk]
          · simp [startCmd, disconnectBLE, hbusy, hip, hmac, hn, hmk, h]
    · have hbusy : s.transferInProgress = true ∧ mac ≠ s.currentTargetMac := ⟨hip, hmac⟩
      simp [startCmd, hbusy, h]
  · have hbusy : ¬(s.transferInProgress = true ∧ mac ≠ s.currentTargetMac) := by
      simp [hip]
    rcases total with _ | n
    · simp [startCmd, disconnectBLE, hbusy, hip, h]
    · by_cases hn : n = 0
      · simp [startCmd, disconnectBLE, hbusy, hip, hn, h]
      · by_cases hmk : macOk = true
        · by_cases hc : s.bleConnected = true <;>
            rcases cr <;>
              simp [startCmd, connectBLE, disconnectBLE, hbusy, hip, hn, hmk, hc]
        · simp [startCmd, disconnectBLE, hbusy, hip, hn, hmk, h]

/-- The packet handler preserves the FIFO accounting invariant. -/
theorem packetCmd_fifo (s : GwState) (mac : String) (hex : List Char)
    (now : Nat) (h : fifoInv s) : fifoInv (packetCmd s mac hex now).1 := by
  unfold fifoInv at h ⊢
  by_cases hact : s.transferInProgress = true ∧ mac = s.currentTargetMac
  · by_cases hb : hexBytes hex = []
    · simp [packetCmd, hact, hb, h]
    · simp [packetCmd, hact, hb]
      rw [← List.append_assoc, h]
  · simp [packetCmd, hact, h]

/-- One loop iteration preserves the FIFO accounting invariant. -/
theorem loopStep_fifo (s : GwState) (now : Nat) (cr : ConnRes) (w : Bool)
    (h : fifoInv s) : fifoInv (loopStep s now cr w).1 := by
  unfold fifoInv at h ⊢
  unfold loopStep
  by_cases hip : s.transferInProgress = true
  · rw [if_pos hip]
    by_cases hab : s.transferAborted = true
    · rw [if_pos hab]; exact h
    · rw [if_neg hab]
      by_cases hto : s.packetQueue = [] ∧
          s.packetsReceivedCount < s.expectedPacketCount ∧
          PACKET_RECEIVE_TIMEOUT_MS < now - s.lastActionTime
      · rw [if_pos hto]; exact h
      · rw [if_neg hto]
        unfold connPhase
        have hwp : ∀ (s1 : GwState) (l : GwLog),
            s1.writtenLog ++ s1.packetQueue = s1.admittedLog →
            (writePhase s1 now w l).1.writtenLog ++ (writePhase s1 now w l).1.packetQueue =
              (writePhase s1 now w l).1.admittedLog := by
          intro s1 l h1
          rw [writePhase.eq_def]
          rcases hq : s1.packetQueue with _ | ⟨p, rest⟩
          · exact h1
          · have h1q : s1.writtenLog ++ (p :: rest) = s1.admittedLog := by
              rw [← hq]; exact h1
            dsimp only
            split_ifs <;> (try rw [hq]) <;> simpa using h1q
        by_cases hc : s.bleConnected = true
        · rw [if_neg (by simp [hc])]
          exact hwp _ _ (by simpa using h)
        · rw [if_pos (by simp [hc])]
          rcases cr
          · have hconn : connectBLE s s.currentTargetMac ConnRes.ok =
                ({ s with bleConnected := true },
                  [("connecting_ble", s.currentTargetMac),
                   ("connected_ble", s.currentTargetMac)], true) := by
              unfold connectBLE
              rw [if_neg (by simp [hc])]
            rw [hconn]
            dsimp only
            rw [if_pos (show (true : Bool) = true from rfl)]
            exact hwp _ _ (by simpa using h)
          · have hconn : connectBLE s s.currentTargetMac ConnRes.connFail =
                (s, [("connecting_ble", s.currentTargetMac)], false) := by
              unfold connectBLE
              rw [if_neg (by simp [hc])]
            rw [hconn]
            dsimp only
            rw [if_neg (show ¬((false : Bool) = true) by simp)]
            split_ifs <;> simpa using h
          · have hconn : connectBLE s s.currentTargetMac ConnRes.serviceFail =
                (s, [("connecting_ble", s.currentTargetMac),
                     ("error_ble_service", s.currentTargetMac)], false) := by
              unfold connectBLE
              rw [if_neg (by simp [hc])]
            rw [hconn]
            dsimp only
            rw [if_neg (show ¬((false : Bool) = true) by simp)]
            split_ifs <;> simpa using h
          · have hconn : connectBLE s s.currentTargetMac ConnRes.charFail =
                (s, [("connecting_ble", s.currentTargetMac),
                     ("error_ble_char", s.currentTargetMac)], false) := by
              unfold connectBLE
              rw [if_neg (by simp [hc])]
            rw [hconn]
            dsimp only
            rw [if_neg (show ¬((false : Bool) = true) by simp)]
            split_ifs <;> simpa using h
  · rw [if_neg hip]
    unfold cleanupPhase disconnectBLE
    by_cases hm : s.currentTargetMac = ""
    · rw [if_neg (by simp [hm])]
      exact h
    · rw [if_pos (by simp [hm])]
      simp

/-- C7: FIFO queue discipline.  The accounting invariant — packets written so
far followed by the packets still queued equal the admitted packets in
admission order — holds initially and is preserved by every event, so at
every reachable state the written sequence is a prefix of the admitted
sequence: packets are written strictly in admission order and none is skipped
while the session is active.  The last conjunct pins the write order: a
successful write always takes exactly the front of the queue, the oldest
admitted unwritten packet. -/
theorem c7_fifo_order :
    fifoInv initialGw ∧
    (∀ (s : GwState) (e : GwEvent), fifoInv s → fifoInv (gwStep s e).1) ∧
    (∀ s : GwState, fifoInv s → ∃ rest, s.admittedLog = s.writtenLog ++ rest) ∧
    (∀ (s : GwState) (now : Nat) (cr : ConnRes) (p : List Nat) (q : List (List Nat)),
      s.transferInProgress = true → s.transferAborted = false →
      s.bleConnected = true → s.packetQueue = p :: q →
      (loopStep s now cr true).1.writtenLog = s.writtenLog ++ [p]) := by
  refine ⟨rfl, ?_, ?_, ?_⟩
  · intro s e h
    rcases e with ⟨mac, macOk, total, now, cr⟩ | ⟨mac, hex, now⟩ | ⟨now, cr, w⟩
    · exact startCmd_fifo s mac macOk total now cr h
    · exact packetCmd_fifo s mac hex now h
    · exact loopStep_fifo s now cr w h
  · intro s h
    exact ⟨s.packetQueue, h.symm⟩
  · intro s now cr p q h1 h2 h3 hq
    unfold loopStep
    rw [if_pos h1, if_neg (by simp [h2]), if_neg (by simp [hq])]
    unfold connPhase
    rw [if_neg (by simp [h3])]
    rw [writePhase.eq_def]
    dsimp only
    rw [hq]
    dsimp only
    rw [if_pos h3, if_pos (show (true : Bool) = true from rfl)]
    by_cases hdone : s.packetsWrittenCount + 1 = s.expectedPacketCount
    · rw [if_pos hdone]
    · rw [if_neg hdone]
      by_cases hflag : s.writingStatusPublished = true
      · rw [if_pos hflag]
      · rw [if_neg hflag]

/-- Witness for C7 at a concrete state with two queued packets, and a
concrete event. -/
theorem c7_fifo_order_witness :
    fifoInv initialGw ∧
    fifoInv (gwStep (sessionState "AA:BB:CC:DD:EE:FF" 3)
      (GwEvent.packet "AA:BB:CC:DD:EE:FF" ['0', 'a'] 0)).1 ∧
    (∃ rest, (sessionState "AA:BB:CC:DD:EE:FF" 3).admittedLog =
      (sessionState "AA:BB:CC:DD:EE:FF" 3).writtenLog ++ rest) ∧
    (loopStep { sessionState "AA:BB:CC:DD:EE:FF" 3 with
        packetQueue := [[10], [20]]
      , admittedLog := [[10], [20]] } 0 ConnRes.ok true).1.writtenLog =
      ({ sessionState "AA:BB:CC:DD:EE:FF" 3 with
        packetQueue := [[10], [20]]
      , admittedLog := [[10], [20]] } : GwState).writtenLog ++ [[10]] :=
  ⟨c7_fifo_order.1,
    c7_fifo_order.2.1 (sessionState "AA:BB:CC:DD:EE:FF" 3)
      (GwEvent.packet "AA:BB:CC:DD:EE:FF" ['0', 'a'] 0) rfl,
    c7_fifo_order.2.2.1 (sessionState "AA:BB:CC:DD:EE:FF" 3) rfl,
    c7_fifo_order.2.2.2 { sessionState "AA:BB:CC:DD:EE:FF" 3 with
        packetQueue := [[10], [20]]
      , admittedLog := [[10], [20]] } 0 ConnRes.ok [10] [[20]] rfl rfl rfl rfl⟩

/-- Session state after k admissions of the packet with payload hex 0a. -/
def admittedState (mac : String) (N k : Nat) : GwState :=
  { sessionState mac N with
      packetQueue := List.replicate k [10]
    , packetsReceivedCount := k
    , admittedLog := List.replicate k [10] }

/-- Session state after all N admissions and j successful writes. -/
def writingState (mac : String) (N j : Nat) : GwState :=
  { admittedState mac N N with
      packetQueue := List.replicate (N - j) [10]
    , packetsWrittenCount := j
    , writtenLog := List.replicate j [10]
    , writingStatusPublished := decide (0 < j) }

/-- Session state after the transfer completed by count. -/
def doneState (mac : String) (N : Nat) : GwState :=
  { writingState mac N (N - 1) with
      packetQueue := []
    , packetsWrittenCount := N
    , writtenLog := List.replicate N [10]
    , transferInProgress := false }

/-- The happy-path run: start for mac expecting N packets with a successful
immediate connect, then N packet admissions, then N loop iterations with
successful writes. -/
def happyRun (mac : String) (N : Nat) : GwState × GwLog :=
  gwRun initialGw (GwEvent.start mac true (some N) 0 ConnRes.ok ::
    (List.replicate N (GwEvent.packet mac ['0', 'a'] 0) ++
      List.replicate N (GwEvent.tick 0 ConnRes.ok true)))

/-- Splitting a run over an append of event lists. -/
theorem gwRun_append (s : GwState) (es1 es2 : List GwEvent) :
    gwRun s (es1 ++ es2) =
      ((gwRun (gwRun s es1).1 es2).1,
        (gwRun s es1).2 ++ (gwRun (gwRun s es1).1 es2).2) := by
  induction es1 generalizing s with
  | nil => simp [gwRun]
  | cons e es ih => simp [gwRun_cons, ih, List.append_assoc]

/-- Admitting one valid packet moves the admitted count up by one. -/
theorem packet_admit_step (mac : String) (N j : Nat) :
    packetCmd (admittedState mac N j) mac ['0', 'a'] 0 =
      (admittedState mac N (j + 1), []) := by
  unfold packetCmd admittedState sessionState initialGw
  simp [show hexBytes ['0', 'a'] = [10] from by decide, ← List.replicate_succ']

/-- Run of k packet admissions. -/
theorem admitRun (mac : String) (N : Nat) :
    ∀ (k j : Nat),
      gwRun (admittedState mac N j) (List.replicate k (GwEvent.packet mac ['0', 'a'] 0)) =
        (admittedState mac N (j + k), []) := by
  intro k
  induction k with
  | zero => intro j; simp [gwRun]
  | succ m ih =>
    intro j
    rw [List.replicate_succ, gwRun_cons]
    rw [show gwStep (admittedState mac N j) (GwEvent.packet mac ['0', 'a'] 0) =
      (admittedState mac N (j + 1), []) from packet_admit_step mac N j]
    dsimp only
    rw [ih (j + 1)]
    rw [show j + 1 + m = j + (m + 1) from by omega]
    rfl

/-- Unfolding of the packet-writing section on a successful write at a
nonempty queue. -/
theorem writePhase_success (s : GwState) (now : Nat) (l : GwLog) (p : List Nat)
    (q : List (List Nat)) (hq : s.packetQueue = p :: q) (hc : s.bleConnected = true) :
    writePhase s now true l =
      if s.packetsWrittenCount + 1 = s.expectedPacketCount then
        ({ s with packetQueue := q
                , packetsWrittenCount := s.packetsWrittenCount + 1
                , lastActionTime := now
                , writtenLog := s.writtenLog ++ [p]
                , transferInProgress := false },
          l ++ [("success", s.currentTargetMac)])
      else if s.writingStatusPublished = true then
        ({ s with packetQueue := q
                , packetsWrittenCount := s.packetsWrittenCount + 1
                , lastActionTime := now
                , writtenLog := s.writtenLog ++ [p] }, l)
      else
        ({ s with packetQueue := q
                , packetsWrittenCount := s.packetsWrittenCount + 1
                , lastActionTime := now
                , writtenLog := s.writtenLog ++ [p]
                , writingStatusPublished := true },
          l ++ [("writing", s.currentTargetMac)]) := by
  rw [writePhase.eq_def]
  rcases hqe : s.packetQueue with _ | ⟨p2, q2⟩
  · rw [hqe] at hq; exact absurd hq (by simp)
  · have hpq : p2 :: q2 = p :: q := hqe.symm.trans hq
    injection hpq with hp hq2
    subst hp
    subst hq2
    dsimp only
    rw [if_pos hc, if_pos (show (true : Bool) = true from rfl)]

/-- A successful write that does not reach the expected count pops the front
packet and emits writing only the first time. -/
theorem tick_write_mid (mac : String) (N j : Nat) (hjN : j + 1 ≠ N) (hj : j < N) :
    loopStep (writingState mac N j) 0 ConnRes.ok true =
      (writingState mac N (j + 1), if 0 < j then [] else [("writing", mac)]) := by
  have hq : (writingState mac N j).packetQueue =
      [10] :: List.replicate (N - j - 1) [10] := by
    show List.replicate (N - j) [10] = _
    have h1 : N - j = N - j - 1 + 1 := by omega
    conv_lhs => rw [h1, List.replicate_succ]
  unfold loopStep
  rw [if_pos (show (writingState mac N j).transferInProgress = true from rfl),
    if_neg (show ¬((writingState mac N j).transferAborted = true) by simp [writingState, admittedState, sessionState, initialGw]),
    if_neg (by simp [hq])]
  unfold connPhase
  rw [if_neg (show ¬(¬((writingState mac N j).bleConnected = true)) by
    simp [writingState, admittedState, sessionState, initialGw])]
  rw [writePhase_success ({ writingState mac N j with bleConnectRetries := 0 }) 0 []
    [10] (List.replicate (N - j - 1) [10]) (by simpa using hq) rfl]
  rw [if_neg (show ¬((writingState mac N j).packetsWrittenCount + 1 =
      ({ writingState mac N j with bleConnectRetries := 0 } : GwState).expectedPacketCount) by
    simp [writingState, admittedState, sessionState, initialGw, hjN])]
  by_cases h0 : 0 < j
  · rw [if_pos (show ({ writingState mac N j with bleConnectRetries := 0 } : GwState).writingStatusPublished = true by
      simp [writingState, admittedState, sessionState, initialGw, h0]),
      if_pos h0]
    unfold writingState admittedState sessionState initialGw
    simp [← List.replicate_succ', show N - (j + 1) = N - j - 1 from by omega, h0]
  · rw [if_neg (show ¬(({ writingState mac N j with bleConnectRetries := 0 } : GwState).writingStatusPublished = true) by
      simp [writingState, admittedState, sessionState, initialGw, h0]),
      if_neg h0]
    unfold writingState admittedState sessionState initialGw
    simp [← List.replicate_succ', show N - (j + 1) = N - j - 1 from by omega, h0]

/-- The write that reaches the expected count completes the transfer and
emits success. -/
theorem tick_write_last (mac : String) (N : Nat) (hN : 0 < N) :
    loopStep (writingState mac N (N - 1)) 0 ConnRes.ok true =
      (doneState mac N, [("success", mac)]) := by
  have hq : (writingState mac N (N - 1)).packetQueue =
      [10] :: List.replicate 0 [10] := by
    show List.replicate (N - (N - 1)) [10] = _
    have h1 : N - (N - 1) = 0 + 1 := by omega
    conv_lhs => rw [h1, List.replicate_succ]
  unfold loopStep
  rw [if_pos (show (writingState mac N (N - 1)).transferInProgress = true from rfl),
    if_neg (show ¬((writingState mac N (N - 1)).transferAborted = true) by
      simp [writingState, admittedState, sessionState, initialGw]),
    if_neg (by simp [hq])]
  unfold connPhase
  rw [if_neg (show ¬(¬((writingState mac N (N - 1)).bleConnected = true)) by
    simp [writingState, admittedState, sessionState, initialGw])]
  rw [writePhase_success ({ writingState mac N (N - 1) with bleConnectRetries := 0 }) 0 []
    [10] (List.replicate 0 [10]) (by simpa using hq) rfl]
  rw [if_pos (show ({ writingState mac N (N - 1) with bleConnectRetries := 0 } : GwState).packetsWrittenCount + 1 =
      ({ writingState mac N (N - 1) with bleConnectRetries := 0 } : GwState).expectedPacketCount by
    simp [writingState, admittedState, sessionState, initialGw]
    omega)]
  unfold doneState writingState admittedState sessionState initialGw
  have h2 : N - 1 + 1 = N := by omega
  simp [h2, ← List.replicate_succ']

/-- Run of the write iterations: from j writes done with r remaining, the
session ends completed with exactly one success status emitted. -/
theorem writeRun (mac : String) (N : Nat) :
    ∀ (r j : Nat), j + r = N → 0 < r →
      (gwRun (writingState mac N j)
          (List.replicate r (GwEvent.tick 0 ConnRes.ok true))).1 = doneState mac N ∧
      (gwRun (writingState mac N j)
          (List.replicate r (GwEvent.tick 0 ConnRes.ok true))).2.count ("success", mac) = 1 := by
  intro r
  induction r with
  | zero => intro j _ hr; exact absurd hr (by omega)
  | succ m ih =>
    intro j hjr hr
    rw [List.replicate_succ, gwRun_cons]
    by_cases hm : m = 0
    · subst hm
      have hj : j = N - 1 := by omega
      subst hj
      rw [show gwStep (writingState mac N (N - 1)) (GwEvent.tick 0 ConnRes.ok true) =
        (doneState mac N, [("success", mac)]) from tick_write_last mac N (by omega)]
      dsimp only
      rw [show List.replicate 0 (GwEvent.tick 0 ConnRes.ok true) = [] from rfl]
      exact ⟨rfl, by simp [gwRun]⟩
    · have hjN : j + 1 ≠ N := by omega
      have hj : j < N := by omega
      rw [show gwStep (writingState mac N j) (GwEvent.tick 0 ConnRes.ok true) =
        (writingState mac N (j + 1), if 0 < j then [] else [("writing", mac)]) from
        tick_write_mid mac N j hjN hj]
      dsimp only
      obtain ⟨ih1, ih2⟩ := ih (j + 1) (by omega) (by omega)
      refine ⟨ih1, ?_⟩
      by_cases h0 : 0 < j
      · simp [h0, List.count_append, ih2]
      · simp [h0, List.count_append, ih2]

/-- C1: a start for mac declaring N packets, followed by N packet admissions
and N successful writes, ends with the transfer no longer in progress, the
written count equal to the expected count N, and exactly one success status
emitted for mac over the whole run; and completion is decided exactly by the
condition written equals expectedCount: a successful write ends the transfer
if and only if it makes the written count reach the expected count. -/
theorem c1_completion_by_count (mac : String) (N : Nat) (hN : 0 < N) :
    (happyRun mac N).1.transferInProgress = false ∧
    (happyRun mac N).1.packetsWrittenCount = N ∧
    (happyRun mac N).1.expectedPacketCount = N ∧
    (happyRun mac N).2.count ("success", mac) = 1 ∧
    (∀ (s : GwState) (now : Nat) (cr : ConnRes) (p : List Nat) (q : List (List Nat)),
      s.transferInProgress = true → s.transferAborted = false →
      s.bleConnected = true → s.packetQueue = p :: q →
      ((loopStep s now cr true).1.transferInProgress = false ↔
        s.packetsWrittenCount + 1 = s.expectedPacketCount)) := by
  have hstart := startCmd_fresh_ok mac N (by omega)
  have hadm : gwRun (sessionState mac N)
      (List.replicate N (GwEvent.packet mac ['0', 'a'] 0)) = (admittedState mac N N, []) := by
    have h := admitRun mac N N 0
    rwa [Nat.zero_add] at h
  have hwr := writeRun mac N N 0 (by omega) hN
  have hkey : happyRun mac N =
      ((gwRun (writingState mac N 0) (List.replicate N (GwEvent.tick 0 ConnRes.ok true))).1,
        ([("starting", mac), ("connecting_ble", mac), ("connected_ble", mac)] : GwLog) ++
          ([] ++ (gwRun (writingState mac N 0)
            (List.replicate N (GwEvent.tick 0 ConnRes.ok true))).2)) := by
    unfold happyRun
    rw [gwRun_cons]
    rw [show gwStep initialGw (GwEvent.start mac true (some N) 0 ConnRes.ok) =
      (sessionState mac N,
        [("starting", mac), ("connecting_ble", mac), ("connected_ble", mac)]) from hstart]
    dsimp only
    rw [gwRun_append, hadm]
    rfl
  refine ⟨?_, ?_, ?_, ?_, ?_⟩
  · rw [hkey]
    dsimp only
    rw [hwr.1]
    rfl
  · rw [hkey]
    dsimp only
    rw [hwr.1]
    rfl
  · rw [hkey]
    dsimp only
    rw [hwr.1]
    rfl
  · rw [hkey]
    dsimp only
    simp [List.count_append, hwr.2]
  · intro s now cr p q h1 h2 h3 hq
    unfold loopStep
    rw [if_pos h1, if_neg (by simp [h2]), if_neg (by simp [hq])]
    unfold connPhase
    rw [if_neg (by simp [h3])]
    rw [writePhase_success ({ s with bleConnectRetries := 0 }) now [] p q
      (by simpa using hq) (by simpa using h3)]
    by_cases hdone : s.packetsWrittenCount + 1 = s.expectedPacketCount
    · rw [if_pos (by simpa using hdone)]
      simp [hdone]
    · rw [if_neg (by simpa using hdone)]
      by_cases hflag : s.writingStatusPublished = true
      · rw [if_pos (by simpa using hflag)]
        simp [h1, hdone]
      · rw [if_neg (by simpa using hflag)]
        simp [h1, hdone]

/-- Witness for C1 at a concrete target, two packets, and a concrete
completing write step. -/
theorem c1_completion_by_count_witness :
    (happyRun "AA:BB:CC:DD:EE:FF" 2).1.transferInProgress = false ∧
    (happyRun "AA:BB:CC:DD:EE:FF" 2).1.packetsWrittenCount = 2 ∧
    (happyRun "AA:BB:CC:DD:EE:FF" 2).1.expectedPacketCount = 2 ∧
    (happyRun "AA:BB:CC:DD:EE:FF" 2).2.count ("success", "AA:BB:CC:DD:EE:FF") = 1 ∧
    ((loopStep { sessionState "AA:BB:CC:DD:EE:FF" 2 with
          packetQueue := [[10]]
        , packetsReceivedCount := 2
        , packetsWrittenCount := 1 } 0 ConnRes.ok true).1.transferInProgress = false ↔
      ({ sessionState "AA:BB:CC:DD:EE:FF" 2 with
          packetQueue := [[10]]
        , packetsReceivedCount := 2
        , packetsWrittenCount := 1 } : GwState).packetsWrittenCount + 1 =
        ({ sessionState "AA:BB:CC:DD:EE:FF" 2 with
            packetQueue := [[10]]
          , packetsReceivedCount := 2
          , packetsWrittenCount := 1 } : GwState).expectedPacketCount) :=
  ⟨(c1_completion_by_count "AA:BB:CC:DD:EE:FF" 2 (by decide)).1,
    (c1_completion_by_count "AA:BB:CC:DD:EE:FF" 2 (by decide)).2.1,
    (c1_completion_by_count "AA:BB:CC:DD:EE:FF" 2 (by decide)).2.2.1,
    (c1_completion_by_count "AA:BB:CC:DD:EE:FF" 2 (by decide)).2.2.2.1,
    (c1_completion_by_count "AA:BB:CC:DD:EE:FF" 2 (by decide)).2.2.2.2
      { sessionState "AA:BB:CC:DD:EE:FF" 2 with
          packetQueue := [[10]]
        , packetsReceivedCount := 2
        , packetsWrittenCount := 1 } 0 ConnRes.ok [10] [] rfl rfl rfl rfl⟩
